import Mathlib

/-!
# QCalc: script handler, symbols editor and main window

A shallow embedding of the parts of the calculator that the verified
properties are about:

* `ScriptHandler::run` (src/cpp/calc/scripthandler.cpp) over a small model of
  the embedded interpreter's C API (objects, reference ownership, the error
  indicator);
* the slots of `SymbolsEditor` (src/gui/widgets/symbolseditor.cpp) over the
  symbol table;
* the start-up and evaluation paths of `MainWindow` (src/gui/mainwindow.cpp).

C++ exceptions are explicit: a function that may throw returns the exception
next to the state it leaves behind.
-/

namespace QCalc

/-! ## C++ exceptions -/

/-- The exception classes that occur in the sources: `std::runtime_error`
(thrown by `ScriptHandler::run`, caught by several handlers of `MainWindow`),
`std::out_of_range` (thrown by `std::map::at`), and any other class derived
from `std::exception`. Every constructor is a `std::exception`. -/
inductive CppException where
  | runtime_error (what : String)
  | out_of_range (what : String)
  | exception (what : String)
deriving DecidableEq, Repr

/-- The text of `e.what()`. -/
def CppException.what : CppException → String
  | .runtime_error w => w
  | .out_of_range w => w
  | .exception w => w

/-- Whether a handler `catch (const std::runtime_error &)` accepts the exception. -/
def CppException.isRuntimeError : CppException → Bool
  | .runtime_error _ => true
  | _ => false

/-! ## The embedded interpreter -/

/-- A C `double`, carried by its IEEE-754 binary64 bit pattern. The script
handler only transports doubles, it never computes with them. -/
structure Double where
  bits : Nat
deriving DecidableEq, Repr

/-- The double `-1.0`, which `PyFloat_AsDouble` returns when it fails. -/
def Double.minusOne : Double := ⟨0xBFF0000000000000⟩

/-- An object of the interpreter. A tuple holds the addresses of its items
(`none` is an unfilled slot); an object of any other type carries its type
name and what the float protocol (`__float__`, `__index__`) gives for it. -/
inductive PyValue where
  | float (d : Double)
  | tuple (items : List (Option Nat))
  | object (typeName : String) (asFloat : Option Double)
deriving DecidableEq, Repr

/-- One observed invocation of a callable: the positional arguments (the
objects the slots of the argument tuple point to) and the keyword-argument
dictionary (`none` when the dictionary pointer is null). -/
structure PyCallRecord where
  args : List (Option PyValue)
  kwargs : Option (List (String × PyValue))
deriving DecidableEq, Repr

/-- What calling a callable does: it raises, or it returns an object. -/
inductive PyOutcome where
  | raise (message : String)
  | ret (value : PyValue)
deriving DecidableEq, Repr

/-- A callable registered by an addon. -/
structure PyCallable where
  body : List (Option PyValue) → Option (List (String × PyValue)) → PyOutcome

/-- The interpreter state as far as `run` touches it: the heap (the address of
an object is its index), the references the C caller owns (one entry per
reference), the log of the references the C caller released, the error
indicator, and the log of calls. -/
structure PyState where
  heap : List PyValue
  owned : List Nat
  released : List Nat
  err : Option String
  calls : List PyCallRecord
deriving DecidableEq, Repr

/-- The state of an interpreter in which nothing was allocated yet. -/
def PyState.initial : PyState := ⟨[], [], [], none, []⟩

/-- Allocates an object and hands the caller a new reference to it. -/
def PyState.alloc (st : PyState) (v : PyValue) : Nat × PyState :=
  (st.heap.length, { st with heap := st.heap ++ [v], owned := st.owned ++ [st.heap.length] })

/-- The C API `PyTuple_New(n)`: a new tuple of `n` unfilled slots, new reference. -/
def PyTuple_New (n : Nat) (st : PyState) : Nat × PyState :=
  st.alloc (.tuple (List.replicate n none))

/-- The C API `PyFloat_FromDouble(v)`: a new float object, new reference. -/
def PyFloat_FromDouble (v : Double) (st : PyState) : Nat × PyState :=
  st.alloc (.float v)

/-- The C API `Py_DECREF(o)`: the caller gives up one reference to `o`. -/
def Py_DECREF (o : Nat) (st : PyState) : PyState :=
  { st with owned := st.owned.erase o, released := st.released ++ [o] }

/-- The C API `PyTuple_SetItem(p, pos, o)`: stores `o` in slot `pos` of the
tuple `p` and steals the caller's reference to `o`; returns `0`. When `p` is no
tuple or `pos` is out of bounds it returns `-1`, sets the error indicator and
releases `o`. -/
def PyTuple_SetItem (p : Nat) (pos : Nat) (o : Nat) (st : PyState) : Int × PyState :=
  match st.heap[p]? with
  | some (.tuple items) =>
    if pos < items.length then
      (0, { st with heap := st.heap.set p (.tuple (items.set pos (some o))),
                    owned := st.owned.erase o })
    else
      (-1, { st with owned := st.owned.erase o,
                     err := some "IndexError: tuple assignment index out of range" })
  | _ =>
    (-1, { st with owned := st.owned.erase o,
                   err := some "SystemError: bad argument to internal function" })

/-- The objects the slots of the tuple at address `p` point to. -/
def PyState.tupleItems (st : PyState) (p : Nat) : List (Option PyValue) :=
  match st.heap[p]? with
  | some (.tuple items) => items.map (fun slot => slot.bind (fun o => st.heap[o]?))
  | _ => []

/-- The C API `PyObject_Call(callable, args, kwargs)`: invokes the callable
with the items of the tuple `args` and the keyword dictionary. On success the
result is a new reference and no exception is set; on failure the result is
null (`none`) and the error indicator is set. A result returned while an
exception is pending is turned into a failure, as the interpreter's call
protocol does. -/
def PyObject_Call (c : PyCallable) (args : Nat) (kwargs : Option (List (String × PyValue)))
    (st : PyState) : Option Nat × PyState :=
  let st1 : PyState := { st with calls := st.calls ++ [PyCallRecord.mk (st.tupleItems args) kwargs] }
  match c.body (st.tupleItems args) kwargs with
  | .raise message => (none, { st1 with err := some message })
  | .ret value =>
    match st1.err with
    | some _ =>
      (none, { st1 with err := some "SystemError: callable returned a result with an exception set" })
    | none =>
      let r := st1.alloc value
      (some r.1, r.2)

/-- What the float protocol gives for an object: the conversion that
`PyFloat_AsDouble` performs. -/
def PyValue.asDouble : PyValue → Option Double
  | .float d => some d
  | .tuple _ => none
  | .object _ asFloat => asFloat

/-- The type name used in the conversion error. -/
def PyValue.typeName : PyValue → String
  | .float _ => "float"
  | .tuple _ => "tuple"
  | .object n _ => n

/-- The C API `PyFloat_AsDouble(o)`: the double of `o`; when the conversion
fails it returns `-1.0` and sets the error indicator. -/
def PyFloat_AsDouble (o : Nat) (st : PyState) : Double × PyState :=
  match st.heap[o]? with
  | some v =>
    match v.asDouble with
    | some d => (d, st)
    | none => (Double.minusOne, { st with err := some ("TypeError: must be real number, not " ++ v.typeName) })
  | none => (Double.minusOne, { st with err := some "SystemError: bad argument to internal function" })

/-- The C API `PyErr_Occurred()`: the pending exception, null (`none`) when there is none. -/
def PyErr_Occurred (st : PyState) : Option String := st.err

/-- Modelled from the spec: `PyUtil::getError` (pyutil.hpp is not among the
sources) yields the foreign runtime's diagnostic text, that is the text of the
pending exception, and fetches (clears) it. -/
def PyUtil.getError (st : PyState) : String × PyState :=
  (st.err.getD "", { st with err := none })

/-- The body of the `for` loop of `ScriptHandler::run`, from index `i` on:
`f = PyFloat_FromDouble(a.at(i)); PyTuple_SetItem(args, i, f)`. The list is
the part of `a` from index `i` on, so `a.at(i)` is its head. -/
def ScriptHandler.fillArgs (args : Nat) : List Double → Nat → PyState → PyState
  | [], _, st => st
  | v :: rest, i, st =>
    let f := PyFloat_FromDouble v st
    let st1 := (PyTuple_SetItem args i f.1 f.2).2
    ScriptHandler.fillArgs args rest (i + 1) st1

/-- The state in which `ScriptHandler::run` reaches `PyObject_Call`, with the
address of the argument tuple: lines 8 to 13. -/
def ScriptHandler.prepare (a : List Double) (st : PyState) : Nat × PyState :=
  let args := PyTuple_New a.length st
  (args.1, ScriptHandler.fillArgs args.1 a 0 args.2)

/-- The function `ScriptHandler::run(PyObject *c, const std::vector<double> &a)`.
Returns the double, or the exception thrown, and the interpreter state. -/
def ScriptHandler.run (c : PyCallable) (a : List Double) (st : PyState) :
    Except CppException Double × PyState :=
  let p := ScriptHandler.prepare a st
  let args := p.1
  let call := PyObject_Call c args none p.2
  let st1 := Py_DECREF args call.2
  match call.1 with
  | none =>
    let e := PyUtil.getError st1
    (.error (.runtime_error e.1), e.2)
  | some pyRet =>
    let ret := PyFloat_AsDouble pyRet st1
    match PyErr_Occurred ret.2 with
    | some _ =>
      let e := PyUtil.getError ret.2
      (.error (.runtime_error e.1), e.2)
    | none =>
      let st2 := Py_DECREF pyRet ret.2
      (.ok ret.1, st2)

/-- A callable that returns a string object, which the float protocol rejects. -/
def returnsText : PyCallable := ⟨fun _ _ => PyOutcome.ret (PyValue.object "str" none)⟩

/-- A callable that returns the float `2.0`. -/
def returnsFloat : PyCallable := ⟨fun _ _ => PyOutcome.ret (PyValue.float ⟨0x4000000000000000⟩)⟩

/-- A callable that raises. -/
def raises : PyCallable := ⟨fun _ _ => PyOutcome.raise "ValueError: math domain error"⟩

/-- The argument vector holding the double `1.0`. -/
def oneArgument : List Double := [⟨0x3FF0000000000000⟩]

/-! ## Numbers, strings and maps -/

/-- The rounding modes of `mpfr_rnd_t`. -/
inductive mpfr_rnd_t where
  | MPFR_RNDN
  | MPFR_RNDZ
  | MPFR_RNDU
  | MPFR_RNDD
  | MPFR_RNDA
deriving DecidableEq, Repr

/-- An `ArithmeticType` (`mpfr::mpreal`): the number `significand * 2 ^ exponent`
held at a bit precision. The editor and the window only store, copy and
hand on such values. -/
structure ArithmeticType where
  significand : Int
  exponent : Int
  precision : Nat
deriving DecidableEq, Repr

/-- The value an integer literal gives at a bit precision (`valueConverted = 0`). -/
def ArithmeticType.ofInt (n : Int) (precision : Nat) : ArithmeticType := ⟨n, 0, precision⟩

/-- The method `QString::size()`: the number of UTF-16 code units of the text. -/
def QString.size (s : String) : Nat :=
  s.data.foldl (fun n c => n + (if c.val < 0x10000 then 1 else 2)) 0

/-- The method `QString::isEmpty()`. -/
def QString.isEmpty (s : String) : Bool := decide (s = "")

/-- The text of the C string `s.c_str()`, as the constructors `QString(const char *)`
and `std::string(const char *)` read it: the text up to its first NUL character. -/
def c_str (s : String) : String := String.mk (s.data.takeWhile (fun c => c != Char.ofNat 0))

/-- The order `operator<` of `std::string`: lexicographic on the characters
(for UTF-8 text the order of the bytes is the order of the code points). -/
def stringLess (a b : String) : Bool := decide (a.data < b.data)

/-- A `std::map<std::string, V>`: its entries in iteration order. -/
abbrev StdMap (V : Type) := List (String × V)

/-- The value stored under a key: `find(k)`, `none` for `end()`. -/
def StdMap.valueOf {V : Type} : StdMap V → String → Option V
  | [], _ => none
  | (k1, v) :: rest, k => if k1 = k then some v else StdMap.valueOf rest k

/-- Whether the map has the key: `find(k) != end()`. -/
def StdMap.hasKey {V : Type} (m : StdMap V) (k : String) : Bool := (m.valueOf k).isSome

/-- The method `std::map::at`: throws `std::out_of_range` for a key the map has not. -/
def StdMap.at {V : Type} (m : StdMap V) (k : String) : Except CppException V :=
  match m.valueOf k with
  | some v => .ok v
  | none => .error (.out_of_range "map::at")

/-- The method `std::map::erase(k)`. -/
def StdMap.eraseKey {V : Type} (m : StdMap V) (k : String) : StdMap V :=
  m.filter (fun p => decide (p.1 ≠ k))

/-- The assignment `m[k] = v`: replaces the value of an existing key, inserts
a new key at its place in the key order. -/
def StdMap.assign {V : Type} : StdMap V → String → V → StdMap V
  | [], k, v => [(k, v)]
  | (k1, v1) :: rest, k, v =>
    if k = k1 then (k, v) :: rest
    else if stringLess k k1 then (k, v) :: (k1, v1) :: rest
    else (k1, v1) :: StdMap.assign rest k v

/-- The keys of a map, in iteration order. -/
def StdMap.keys {V : Type} (m : StdMap V) : List String := m.map (fun p => p.1)

/-- A `std::set<std::string>`: its elements in iteration order. -/
abbrev StdSet := List String

/-- The method `std::set::insert`: nothing changes when the element is in the
set, else it takes its place in the order. -/
def StdSet.insert : StdSet → String → StdSet
  | [], x => [x]
  | y :: rest, x =>
    if x = y then y :: rest
    else if stringLess x y then x :: y :: rest
    else y :: StdSet.insert rest x

/-- The number formatter (math/numberformat.hpp) and the mpfr helpers the
editor and the window call. Their code is not among the sources: they are
parameters of the embedding. `getDecimals` counts digits and does not throw;
`fromDecimal` and `toDecimal` may throw. -/
structure NumberFormat where
  getDecimals : String → Int
  fromDecimal : String → Nat → mpfr_rnd_t → Except CppException ArithmeticType
  toDecimal : ArithmeticType → Int → mpfr_rnd_t → Except CppException String
  digits2bits : Nat → Nat
  bits2digits : Nat → Int
  defaultPrecision : Nat

/-! ## The symbol table -/

/-- The struct `Function` of function.hpp. -/
structure Function where
  name : String
  expression : String
  argumentNames : List String
deriving DecidableEq, Repr

/-- A script: the reference to the callable an addon registered. -/
structure Script where
  callable : Nat
deriving DecidableEq, Repr

/-- Modelled from the spec: the class `SymbolTable` (math/symboltable.hpp is not
among the sources). Four mappings from names to variables, constants,
functions and scripts, and per variable and constant the number of decimal
digits last used to format it. -/
structure SymbolTable where
  variableMap : StdMap ArithmeticType
  variableDecimals : StdMap Int
  constantMap : StdMap ArithmeticType
  constantDecimals : StdMap Int
  functionMap : StdMap Function
  scriptMap : StdMap Script
deriving DecidableEq, Repr

namespace SymbolTable

/-- The table without symbols. -/
def empty : SymbolTable := ⟨[], [], [], [], [], []⟩

/-- Modelled from the spec: `hasVariable(name)`, the predicate of the variable variant. -/
def hasVariable (t : SymbolTable) (name : String) : Bool := t.variableMap.hasKey name

/-- Modelled from the spec: `hasConstant(name)`, the predicate of the constant variant. -/
def hasConstant (t : SymbolTable) (name : String) : Bool := t.constantMap.hasKey name

/-- Modelled from the spec: `hasFunction(name)`, the predicate of the function variant. -/
def hasFunction (t : SymbolTable) (name : String) : Bool := t.functionMap.hasKey name

/-- Modelled from the spec: `hasScript(name)`, the predicate of the script variant. -/
def hasScript (t : SymbolTable) (name : String) : Bool := t.scriptMap.hasKey name

/-- Modelled from the spec: `getVariables()`, the read view of the variables. -/
def getVariables (t : SymbolTable) : StdMap ArithmeticType := t.variableMap

/-- Modelled from the spec: `getVariableDecimals()`, the digit counts of the variables. -/
def getVariableDecimals (t : SymbolTable) : StdMap Int := t.variableDecimals

/-- Modelled from the spec: `getConstants()`, the read view of the constants. -/
def getConstants (t : SymbolTable) : StdMap ArithmeticType := t.constantMap

/-- Modelled from the spec: `getConstantDecimals()`, the digit counts of the constants. -/
def getConstantDecimals (t : SymbolTable) : StdMap Int := t.constantDecimals

/-- Modelled from the spec: `getFunctions()`, the read view of the functions. -/
def getFunctions (t : SymbolTable) : StdMap Function := t.functionMap

/-- Modelled from the spec: `getScripts()`, the read view of the scripts. -/
def getScripts (t : SymbolTable) : StdMap Script := t.scriptMap

/-- Modelled from the spec: `remove(name)` deletes the entry under whichever
variant holds it, with its digit count, and is a no-op if the name is absent. -/
def remove (t : SymbolTable) (name : String) : SymbolTable :=
  { variableMap := t.variableMap.eraseKey name
    variableDecimals := t.variableDecimals.eraseKey name
    constantMap := t.constantMap.eraseKey name
    constantDecimals := t.constantDecimals.eraseKey name
    functionMap := t.functionMap.eraseKey name
    scriptMap := t.scriptMap.eraseKey name }

/-- Modelled from the spec: `setVariable(name, value, digits)` overwrites any
existing entry under that name regardless of prior variant: afterwards the
name is a variable and no other variant reports it. -/
def setVariable (t : SymbolTable) (name : String) (value : ArithmeticType) (decimals : Int) :
    SymbolTable :=
  { variableMap := t.variableMap.assign name value
    variableDecimals := t.variableDecimals.assign name decimals
    constantMap := t.constantMap.eraseKey name
    constantDecimals := t.constantDecimals.eraseKey name
    functionMap := t.functionMap.eraseKey name
    scriptMap := t.scriptMap.eraseKey name }

/-- Modelled from the spec: `setConstant(name, value, digits)` overwrites any
existing entry under that name regardless of prior variant. -/
def setConstant (t : SymbolTable) (name : String) (value : ArithmeticType) (decimals : Int) :
    SymbolTable :=
  { variableMap := t.variableMap.eraseKey name
    variableDecimals := t.variableDecimals.eraseKey name
    constantMap := t.constantMap.assign name value
    constantDecimals := t.constantDecimals.assign name decimals
    functionMap := t.functionMap.eraseKey name
    scriptMap := t.scriptMap.eraseKey name }

/-- Modelled from the spec: `setFunction(name, f)` overwrites any existing
entry under that name regardless of prior variant. -/
def setFunction (t : SymbolTable) (name : String) (f : Function) : SymbolTable :=
  { variableMap := t.variableMap.eraseKey name
    variableDecimals := t.variableDecimals.eraseKey name
    constantMap := t.constantMap.eraseKey name
    constantDecimals := t.constantDecimals.eraseKey name
    functionMap := t.functionMap.assign name f
    scriptMap := t.scriptMap.eraseKey name }

/-- Modelled from the spec: `setScript(name, ref)` overwrites any existing
entry under that name regardless of prior variant. -/
def setScript (t : SymbolTable) (name : String) (s : Script) : SymbolTable :=
  { variableMap := t.variableMap.eraseKey name
    variableDecimals := t.variableDecimals.eraseKey name
    constantMap := t.constantMap.eraseKey name
    constantDecimals := t.constantDecimals.eraseKey name
    functionMap := t.functionMap.eraseKey name
    scriptMap := t.scriptMap.assign name s }

/-- The number of variants that own a name. -/
def owners (t : SymbolTable) (name : String) : Nat :=
  (t.hasVariable name).toNat + (t.hasConstant name).toNat
    + (t.hasFunction name).toNat + (t.hasScript name).toNat

/-- Cross-variant uniqueness: no name is owned by more than one variant. -/
def Unique (t : SymbolTable) : Prop := ∀ name, t.owners name ≤ 1

/-- Whether one of the four variants owns the name. -/
def owns (t : SymbolTable) (name : String) : Bool :=
  t.hasVariable name || t.hasConstant name || t.hasFunction name || t.hasScript name

end SymbolTable

/-! ## The symbols editor -/

/-- The buttons `QMessageBox::question` returns: the enum `QMessageBox::StandardButton`. -/
inductive StandardButton where
  | Yes
  | No
deriving DecidableEq, Repr

/-- The value of the enumerator (`QMessageBox::Yes = 0x00004000`,
`QMessageBox::No = 0x00010000`). -/
def StandardButton.toInt : StandardButton → Int
  | .Yes => 0x00004000
  | .No => 0x00010000

/-- What a slot does to the user interface, in order: message boxes, emitted
signals and refreshed widgets. -/
inductive UiEvent where
  | warning (title text : String)
  | information (title text : String)
  | question (title text : String)
  | symbolsChanged (table : SymbolTable)
  | setValues (values : StdMap String)
  | setFunctions (functions : StdMap Function)
  | expressionEvaluated (expression value : String)
  | recentMenu (paths : List String)
deriving DecidableEq, Repr

/-- The outcome of a slot of the editor: the editor's symbol table when the
slot is left, the exception that leaves the slot if any, and the effects on
the user interface. -/
structure Handled where
  symbolTable : SymbolTable
  thrown : Option CppException
  events : List UiEvent
deriving DecidableEq, Repr

/-- The function `convertMap(map, prec)` of symbolseditor.cpp. The key and the
text of an entry of the result are built from C strings,
`ret[QString(p.first.c_str())] = NumberFormat::toDecimal(...).c_str()`. -/
def convertMap (nf : NumberFormat) (map : StdMap ArithmeticType) (prec : StdMap Int) :
    Except CppException (StdMap String) :=
  map.foldlM (fun ret p => do
    let decimals ← prec.at p.1
    let precision := if decimals ≥ 0 then decimals else nf.bits2digits p.2.precision
    let text ← nf.toDecimal p.2 precision mpfr_rnd_t.MPFR_RNDN
    pure (ret.assign (c_str p.1) (c_str text))) []

namespace SymbolsEditor

/-- The statement `variablesEditor->setValues(convertMap(symbolTable.getVariables(),
symbolTable.getVariableDecimals()))` after the events so far. -/
def refreshVariables (nf : NumberFormat) (t : SymbolTable) (events : List UiEvent) : Handled :=
  match convertMap nf t.getVariables t.getVariableDecimals with
  | .ok values => ⟨t, none, events ++ [UiEvent.setValues values]⟩
  | .error e => ⟨t, some e, events⟩

/-- The statements `functionsEditor->setFunctions(symbolTable.getFunctions());
functionsEditor->setCurrentFunction(currentFunction)` after the events so far. -/
def refreshFunctions (t : SymbolTable) (events : List UiEvent) : Handled :=
  ⟨t, none, events ++ [UiEvent.setFunctions t.getFunctions]⟩

/-- The conversion of the value text in `onVariableAdded` and `onConstantAdded`
(lines 130 to 144): the value, the digit count and the message boxes shown. -/
def convertAdded (nf : NumberFormat) (value : String) : ArithmeticType × Int × List UiEvent :=
  let decimals := nf.getDecimals value
  if QString.isEmpty value then
    (ArithmeticType.ofInt 0 nf.defaultPrecision, decimals, [])
  else
    match nf.fromDecimal value (nf.digits2bits (QString.size value)) mpfr_rnd_t.MPFR_RNDN with
    | .ok valueConverted => (valueConverted, decimals, [])
    | .error _ =>
      (ArithmeticType.ofInt 0 nf.defaultPrecision, 0,
        [UiEvent.warning "Failed to convert value" "Failed to parse value as decimal."])

/-- The slot `SymbolsEditor::onVariableAdded(name, value)`. -/
def onVariableAdded (nf : NumberFormat) (t : SymbolTable) (name value : String) : Handled :=
  if QString.isEmpty name then
    ⟨t, none, [UiEvent.warning "Failed to add variable" "The variable name cannot be empty."]⟩
  else if t.hasVariable name then
    ⟨t, none, [UiEvent.warning "Failed to add variable" "A variable with the name already exists."]⟩
  else if t.hasConstant name then
    ⟨t, none, [UiEvent.warning "Failed to add variable" "A constant with the name already exists."]⟩
  else if t.hasFunction name then
    ⟨t, none, [UiEvent.warning "Failed to add variable" "A function with the name already exists."]⟩
  else if t.hasScript name then
    ⟨t, none, [UiEvent.warning "Failed to add variable" "A script with the name already exists."]⟩
  else
    let conv := convertAdded nf value
    let t2 := t.setVariable name conv.1 conv.2.1
    ⟨t2, none, conv.2.2 ++ [UiEvent.symbolsChanged t2]⟩

/-- The slot `SymbolsEditor::onVariableNameChanged(originalName, name)`; `answer`
is the button `QMessageBox::question` returns when the slot asks. -/
def onVariableNameChanged (nf : NumberFormat) (t : SymbolTable) (originalName name : String)
    (answer : StandardButton) : Handled :=
  if QString.isEmpty name then
    let t2 := if answer.toInt ≠ 0 then t.remove originalName else t
    ⟨t2, none, [UiEvent.question "Delete variable"
        ("Do you want to delete the variable " ++ originalName ++ " ?"),
      UiEvent.symbolsChanged t2]⟩
  else if t.hasVariable name then
    refreshVariables nf t
      [UiEvent.warning "Failed to changed variable name" "A variable with the name already exists."]
  else if t.hasConstant name then
    refreshVariables nf t
      [UiEvent.warning "Failed to changed variable name" "A constant with the name already exists."]
  else if t.hasFunction name then
    refreshVariables nf t
      [UiEvent.warning "Failed to changed variable name" "A function with the name already exists."]
  else if t.hasScript name then
    refreshVariables nf t
      [UiEvent.warning "Failed to changed variable name" "A script with the name already exists."]
  else
    match t.getVariables.at originalName with
    | .error e => ⟨t, some e, []⟩
    | .ok value =>
      match t.getVariableDecimals.at originalName with
      | .error e => ⟨t, some e, []⟩
      | .ok decimals =>
        let t2 := (t.setVariable name value decimals).remove originalName
        ⟨t2, none, [UiEvent.symbolsChanged t2]⟩

/-- The slot `SymbolsEditor::onVariableValueChanged(name, value)`. -/
def onVariableValueChanged (nf : NumberFormat) (t : SymbolTable) (name value : String) : Handled :=
  match t.getVariables.at name with
  | .error e => ⟨t, some e, []⟩
  | .ok originalValue =>
    let decimals := nf.getDecimals value
    match nf.fromDecimal value (nf.digits2bits (QString.size value)) mpfr_rnd_t.MPFR_RNDN with
    | .ok newValue =>
      let t2 := t.setVariable name newValue decimals
      ⟨t2, none, [UiEvent.symbolsChanged t2]⟩
    | .error _ =>
      match t.getVariableDecimals.at name with
      | .error e => ⟨t, some e, []⟩
      | .ok kept =>
        let t2 := t.setVariable name originalValue kept
        ⟨t2, none, [UiEvent.warning "Failed to convert value" "Failed to parse value as decimal.",
          UiEvent.symbolsChanged t2]⟩

/-- The slot `SymbolsEditor::onConstantAdded(name, value)`. -/
def onConstantAdded (nf : NumberFormat) (t : SymbolTable) (name value : String) : Handled :=
  if QString.isEmpty name then
    ⟨t, none, [UiEvent.warning "Failed to add constant" "The constant name cannot be empty."]⟩
  else if t.hasVariable name then
    ⟨t, none, [UiEvent.warning "Failed to add constant" "A variable with the name already exists."]⟩
  else if t.hasConstant name then
    ⟨t, none, [UiEvent.warning "Failed to add constant" "A constant with the name already exists."]⟩
  else if t.hasFunction name then
    ⟨t, none, [UiEvent.warning "Failed to add constant" "A function with the name already exists."]⟩
  else if t.hasScript name then
    ⟨t, none, [UiEvent.warning "Failed to add constant" "A script with the name already exists."]⟩
  else
    let conv := convertAdded nf value
    let t2 := t.setConstant name conv.1 conv.2.1
    ⟨t2, none, conv.2.2 ++ [UiEvent.symbolsChanged t2]⟩

/-- The slot `SymbolsEditor::onConstantNameChanged(originalName, name)`; `answer`
is the button `QMessageBox::question` returns when the slot asks. In the last
branch the digit count is read with `getConstantDecimals().at(name)`. -/
def onConstantNameChanged (nf : NumberFormat) (t : SymbolTable) (originalName name : String)
    (answer : StandardButton) : Handled :=
  if QString.isEmpty name then
    let t2 := if answer.toInt ≠ 0 then t.remove originalName else t
    ⟨t2, none, [UiEvent.question "Delete constant"
        ("Do you want to delete the constant " ++ originalName ++ " ?"),
      UiEvent.symbolsChanged t2]⟩
  else if t.hasVariable name then
    refreshVariables nf t
      [UiEvent.warning "Failed to change constant name" "A variable with the name already exists."]
  else if t.hasConstant name then
    refreshVariables nf t
      [UiEvent.warning "Failed to change constant name" "A constant with the name already exists."]
  else if t.hasFunction name then
    refreshVariables nf t
      [UiEvent.warning "Failed to change constant name" "A function with the name already exists."]
  else if t.hasScript name then
    refreshVariables nf t
      [UiEvent.warning "Failed to change constant name" "A script with the name already exists."]
  else
    match t.getConstants.at originalName with
    | .error e => ⟨t, some e, []⟩
    | .ok value =>
      match t.getConstantDecimals.at name with
      | .error e => ⟨t, some e, []⟩
      | .ok decimals =>
        let t2 := (t.setConstant name value decimals).remove originalName
        ⟨t2, none, [UiEvent.symbolsChanged t2]⟩

/-- The slot `SymbolsEditor::onConstantValueChanged(name, value)`. -/
def onConstantValueChanged (nf : NumberFormat) (t : SymbolTable) (name value : String) : Handled :=
  match t.getConstants.at name with
  | .error e => ⟨t, some e, []⟩
  | .ok originalValue =>
    let decimals := nf.getDecimals value
    match nf.fromDecimal value (nf.digits2bits (QString.size value)) mpfr_rnd_t.MPFR_RNDN with
    | .ok newValue =>
      let t2 := t.setConstant name newValue decimals
      ⟨t2, none, [UiEvent.symbolsChanged t2]⟩
    | .error _ =>
      match t.getConstantDecimals.at name with
      | .error e => ⟨t, some e, []⟩
      | .ok kept =>
        let t2 := t.setConstant name originalValue kept
        ⟨t2, none, [UiEvent.warning "Failed to convert value" "Failed to parse value as decimal.",
          UiEvent.symbolsChanged t2]⟩

/-- The slot `SymbolsEditor::onFunctionAdded(name)`. -/
def onFunctionAdded (t : SymbolTable) (name : String) : Handled :=
  if QString.isEmpty name then
    ⟨t, none, [UiEvent.warning "Failed to add function" "The function name cannot be empty."]⟩
  else if t.hasVariable name then
    ⟨t, none, [UiEvent.warning "Failed to add function" "A variable with the name already exists."]⟩
  else if t.hasConstant name then
    ⟨t, none, [UiEvent.warning "Failed to add function" "A constant with the name already exists."]⟩
  else if t.hasFunction name then
    ⟨t, none, [UiEvent.warning "Failed to add function" "A function with the name already exists."]⟩
  else if t.hasScript name then
    ⟨t, none, [UiEvent.warning "Failed to add function" "A script with the name already exists."]⟩
  else
    let t2 := t.setFunction name ⟨"", "", []⟩
    ⟨t2, none, [UiEvent.symbolsChanged t2]⟩

/-- The slot `SymbolsEditor::onFunctionNameChanged(originalName, name)`; `answer`
is the button `QMessageBox::question` returns when the slot asks. -/
def onFunctionNameChanged (t : SymbolTable) (originalName name : String)
    (answer : StandardButton) : Handled :=
  if QString.isEmpty name then
    let t2 := if answer.toInt ≠ 0 then t.remove originalName else t
    ⟨t2, none, [UiEvent.question "Delete function"
        ("Do you want to delete the function " ++ originalName ++ " ?"),
      UiEvent.symbolsChanged t2]⟩
  else if t.hasVariable name then
    refreshFunctions t
      [UiEvent.warning "Failed to change function name" "A variable with the name already exists."]
  else if t.hasConstant name then
    refreshFunctions t
      [UiEvent.warning "Failed to change function name" "A constant with the name already exists."]
  else if t.hasFunction name then
    refreshFunctions t
      [UiEvent.warning "Failed to change function name" "A function with the name already exists."]
  else if t.hasScript name then
    refreshFunctions t
      [UiEvent.warning "Failed to change function name" "A script with the name already exists."]
  else
    match t.getFunctions.at originalName with
    | .error e => ⟨t, some e, []⟩
    | .ok f =>
      let t2 := (t.remove originalName).setFunction name f
      ⟨t2, none, [UiEvent.symbolsChanged t2]⟩

/-- The slot `SymbolsEditor::onFunctionBodyChanged(name, body)`. -/
def onFunctionBodyChanged (t : SymbolTable) (name body : String) : Handled :=
  match t.getFunctions.at name with
  | .error e => ⟨t, some e, []⟩
  | .ok f =>
    let t2 := t.setFunction name { f with expression := body }
    ⟨t2, none, [UiEvent.symbolsChanged t2]⟩

/-- The slot `SymbolsEditor::onFunctionArgsChanged(name, args)`. -/
def onFunctionArgsChanged (t : SymbolTable) (name : String) (args : List String) : Handled :=
  match t.getFunctions.at name with
  | .error e => ⟨t, some e, []⟩
  | .ok f =>
    let t2 := t.setFunction name { f with argumentNames := args }
    ⟨t2, none, [UiEvent.symbolsChanged t2]⟩

end SymbolsEditor

/-! ## Concrete inputs for the symbols editor -/

/-- A number formatter for concrete inputs: every text has two decimals,
`fromDecimal` rejects every text, `toDecimal` prints `0`, four bits a digit. -/
def sampleFormat : NumberFormat :=
  { getDecimals := fun _ => 2
    fromDecimal := fun _ _ _ => .error (.runtime_error "not a decimal numeral")
    toDecimal := fun _ _ _ => .ok "0"
    digits2bits := fun n => 4 * n
    bits2digits := fun n => n / 4
    defaultPrecision := 64 }

/-- A table with the variable `x = 3` (one digit) and the constant `a = 1` (two digits). -/
def sampleTable : SymbolTable :=
  (SymbolTable.empty.setConstant "a" ⟨1, 0, 64⟩ 2).setVariable "x" ⟨3, 0, 64⟩ 1

/-! ## The main window -/

/-- Modelled from the spec: the class `Settings` (io/settings.hpp is not among
the sources), the persisted settings document: integer entries under keys;
`value(key, default).toInt()` is the entry, or the default when the document
has none. -/
structure Settings where
  entries : StdMap Int
deriving DecidableEq, Repr

/-- The empty settings `{}`. -/
def Settings.empty : Settings := ⟨[]⟩

/-- The call `settings.value(key, defaultValue).toInt()`. -/
def Settings.value (s : Settings) (key : String) (defaultValue : Int) : Int :=
  (s.entries.valueOf key).getD defaultValue

/-- The keys and built-in defaults of settingconstants.hpp, which is not among
the sources: parameters of the embedding. -/
structure SettingConstants where
  SETTING_KEY_PRECISION : String
  SETTING_DEFAULT_PRECISION : Int
  SETTING_KEY_ROUNDING : String
  SETTING_DEFAULT_ROUNDING : Int
  SETTING_KEY_PRECISION_F : String
  SETTING_DEFAULT_PRECISION_F : Int
  SETTING_KEY_ROUNDING_F : String
  SETTING_DEFAULT_ROUNDING_F : Int

/-- The collaborators of the main window whose code is not among the sources,
as parameters: the number formatter, the setting constants, the directories
of `Paths`, the file system (`QFile::exists`, `FileOperations::fileReadAllText`),
the `Serializer`, `ExpressionParser::evaluate` (which takes the symbol table by
reference: it yields the table it leaves behind next to its result or
exception) and the addons `AddonManager::getAvailableAddons` reports. -/
structure Collaborators where
  nf : NumberFormat
  constants : SettingConstants
  appConfigDirectory : String
  appDataDirectory : String
  fileExists : String → Bool
  fileReadAllText : String → Except CppException String
  deserializeSettings : String → Except CppException Settings
  deserializeSet : String → Except CppException StdSet
  deserializeRoundingMode : Int → Except CppException mpfr_rnd_t
  evaluate : String → SymbolTable → Except CppException ArithmeticType × SymbolTable
  availableAddons : List String

/-- The constant `ADDONS_FILE`. -/
def ADDONS_FILE : String := "/addons.json"

/-- The constant `SETTINGS_FILE`. -/
def SETTINGS_FILE : String := "/settings.json"

/-- The members of `MainWindow` the verified paths touch, the process-wide
default precision and rounding mode of `mpfr::mpreal`, the set last passed to
`AddonManager::setActiveAddons`, and the message boxes and signals so far.
`symbolsDialog` is `none` for the null pointer, else the symbols the dialog shows. -/
structure MainWindow where
  symbolTable : SymbolTable
  settings : Settings
  symbolsDialog : Option SymbolTable
  symbolTablePathHistory : StdSet
  currentSymbolTablePath : String
  saveSymbolsEnabled : Bool
  defaultPrec : Int
  defaultRnd : mpfr_rnd_t
  activeAddons : StdSet
  events : List UiEvent
deriving DecidableEq, Repr

namespace MainWindow

/-- What a `catch (const std::runtime_error &e)` handler of the window that shows
`QMessageBox::warning(this, title, e.what())` makes of an exception thrown in
its `try` block: `some` window with the warning when it catches, `none` when
the exception is of another class and propagates. -/
def catchRuntimeError (w : MainWindow) (title : String) (e : CppException) : Option MainWindow :=
  if e.isRuntimeError then
    some { w with events := w.events ++ [UiEvent.warning title e.what] }
  else
    none

/-- The function `MainWindow::loadSettings()`: the exception that leaves the
function, if any, and the window afterwards. -/
def loadSettings (env : Collaborators) (w : MainWindow) : Option CppException × MainWindow :=
  let settingsFilePath := env.appConfigDirectory ++ SETTINGS_FILE
  let finish (w1 : MainWindow) : Option CppException × MainWindow :=
    let w2 := { w1 with defaultPrec := (w1.settings.value env.constants.SETTING_KEY_PRECISION
      env.constants.SETTING_DEFAULT_PRECISION) }
    match env.deserializeRoundingMode (w2.settings.value env.constants.SETTING_KEY_ROUNDING
        env.constants.SETTING_DEFAULT_ROUNDING) with
    | .error e => (some e, w2)
    | .ok rnd =>
      let w3 := { w2 with defaultRnd := rnd }
      (none, { w3 with symbolsDialog := w3.symbolsDialog.map (fun _ => w3.symbolTable) })
  if env.fileExists settingsFilePath then
    match (env.fileReadAllText settingsFilePath).bind env.deserializeSettings with
    | .ok loaded => finish { w with settings := loaded }
    | .error e =>
      match catchRuntimeError w "Failed to load settings" e with
      | some w1 => finish { w1 with settings := Settings.empty }
      | none => (some e, w)
  else
    finish w

/-- The loop of the constructor that keeps the enabled addons which still
exist (lines 134 to 139). -/
def keepAvailable (addons : List String) (enabledAddons : StdSet) : StdSet :=
  enabledAddons.foldl
    (fun availableAddons addon =>
      if addons.contains addon then availableAddons.insert addon else availableAddons) []

/-- The end of the constructor `MainWindow::MainWindow` (lines 120 to 141): it
loads the enabled addons and calls `addonManager->setActiveAddons`. Yields the
exception that leaves the constructor, if any, and the window afterwards, in
which `activeAddons` is the set passed to `setActiveAddons`. -/
def loadEnabledAddons (env : Collaborators) (w : MainWindow) : Option CppException × MainWindow :=
  let enabledAddonsFilePath := env.appDataDirectory ++ ADDONS_FILE
  let finish (w1 : MainWindow) (enabledAddons : StdSet) : Option CppException × MainWindow :=
    (none, { w1 with activeAddons := keepAvailable env.availableAddons enabledAddons })
  if env.fileExists enabledAddonsFilePath then
    match (env.fileReadAllText enabledAddonsFilePath).bind env.deserializeSet with
    | .ok enabledAddons => finish w enabledAddons
    | .error e =>
      match catchRuntimeError w "Failed to load enabled addons" e with
      | some w1 => finish w1 []
      | none => (some e, w)
  else
    finish w []

end MainWindow

/-! ## Concrete inputs for the main window -/

/-- Setting constants for concrete inputs. -/
def sampleConstants : SettingConstants :=
  { SETTING_KEY_PRECISION := "precision"
    SETTING_DEFAULT_PRECISION := 1000
    SETTING_KEY_ROUNDING := "rounding"
    SETTING_DEFAULT_ROUNDING := 0
    SETTING_KEY_PRECISION_F := "precision_formatting"
    SETTING_DEFAULT_PRECISION_F := 10
    SETTING_KEY_ROUNDING_F := "rounding_formatting"
    SETTING_DEFAULT_ROUNDING_F := 0 }

/-- Collaborators for concrete inputs: the settings file and the
enabled-addons file exist; the documents `precision 64` and `a b` are well
formed (the precision 64, the addons `a` and `b`), the document `truncated`
makes the serializer throw a `std::runtime_error`, and any other document
makes it throw an exception of another class, as a parser library with
exception classes of its own does; the expression `1+1` evaluates,
the expression `f(` does not compile and any other expression divides by zero,
both raised as a `std::runtime_error`. The addons `b` and `c` are available. -/
def sampleCollaborators (settingsText addonsText : String) : Collaborators :=
  { nf := sampleFormat
    constants := sampleConstants
    appConfigDirectory := "/config"
    appDataDirectory := "/data"
    fileExists := fun _ => true
    fileReadAllText := fun path => if path = "/config/settings.json" then .ok settingsText
      else .ok addonsText
    deserializeSettings := fun text =>
      if text = "precision 64" then .ok ⟨[("precision", 64)]⟩
      else if text = "truncated" then .error (.runtime_error "unexpected end of document")
      else .error (.exception "parse error")
    deserializeSet := fun text =>
      if text = "a b" then .ok ["a", "b"]
      else if text = "truncated" then .error (.runtime_error "unexpected end of document")
      else .error (.exception "parse error")
    deserializeRoundingMode := fun n =>
      if n = 0 then .ok mpfr_rnd_t.MPFR_RNDN else .error (.runtime_error "Invalid rounding mode")
    evaluate := fun expression table =>
      if expression = "1+1" then (.ok ⟨2, 0, 64⟩, table)
      else if expression = "f(" then (.error (.runtime_error "Failed to compile expression"), table)
      else (.error (.runtime_error "Division by zero"), table)
    availableAddons := ["b", "c"] }

/-- A window right after construction of its members. -/
def sampleWindow : MainWindow :=
  { symbolTable := SymbolTable.empty
    settings := Settings.empty
    symbolsDialog := none
    symbolTablePathHistory := []
    currentSymbolTablePath := ""
    saveSymbolsEnabled := false
    defaultPrec := 53
    defaultRnd := mpfr_rnd_t.MPFR_RNDN
    activeAddons := []
    events := [] }

/-! ## Value texts and their precision -/

/-- The number of significant digits of a value text: its decimal digits from
the first digit that is not `0` on. -/
def significantDigits (text : String) : Nat :=
  ((text.data.filter Char.isDigit).dropWhile (fun c => c == '0')).length

/-- Two number formatters that differ at most in what `fromDecimal` gives for
arguments other than the text, the bit precision and the rounding mode named. -/
def NumberFormat.AgreesAt (nf nf2 : NumberFormat) (text : String) (bits : Nat)
    (rnd : mpfr_rnd_t) : Prop :=
  nf2.getDecimals = nf.getDecimals ∧ nf2.toDecimal = nf.toDecimal
    ∧ nf2.digits2bits = nf.digits2bits ∧ nf2.bits2digits = nf.bits2digits
    ∧ nf2.defaultPrecision = nf.defaultPrecision
    ∧ nf2.fromDecimal text bits rnd = nf.fromDecimal text bits rnd

/-- Two tables hold the same symbol under a name: the six mappings of the
tables give the same for it. -/
def SymbolTable.agreeAt (a b : SymbolTable) (name : String) : Prop :=
  a.getVariables.valueOf name = b.getVariables.valueOf name
    ∧ a.getVariableDecimals.valueOf name = b.getVariableDecimals.valueOf name
    ∧ a.getConstants.valueOf name = b.getConstants.valueOf name
    ∧ a.getConstantDecimals.valueOf name = b.getConstantDecimals.valueOf name
    ∧ a.getFunctions.valueOf name = b.getFunctions.valueOf name
    ∧ a.getScripts.valueOf name = b.getScripts.valueOf name

/-! ## The symbol-table files of the main window -/

/-- The constant `SYMBOL_TABLE_HISTORY_FILE`. -/
def SYMBOL_TABLE_HISTORY_FILE : String := "/symboltablehistory.json"

/-- The method `std::set::erase(key)`. -/
def StdSet.erase : StdSet → String → StdSet
  | [], _ => []
  | y :: rest, x => if y = x then StdSet.erase rest x else y :: StdSet.erase rest x

/-- More collaborators of the main window whose code is not among the
sources, as parameters: `Serializer::deserializeTable`, `Serializer::serializeSet`,
`FileOperations::fileWriteAllText` (the exception it throws, if any) and the
setting that switches the saving of the history. -/
structure SymbolFiles where
  deserializeTable : String → Except CppException SymbolTable
  serializeSet : StdSet → Except CppException String
  fileWriteAllText : String → String → Option CppException
  SETTING_KEY_SAVE_SYM_HISTORY : String
  SETTING_DEFAULT_SAVE_SYM_HISTORY : Int

namespace MainWindow

/-- The call `addonManager->setActiveAddons(addons)`: the window records the
set passed (the addon manager is not among the sources). -/
def setActiveAddons (w : MainWindow) (addons : StdSet) : MainWindow :=
  { w with activeAddons := addons }

/-- The function `MainWindow::importSymbolTable(path)`: the value returned and
the window afterwards. The handler is `catch (const std::exception &e)`, which
accepts every exception class. The message boxes show the C string of their
text (`.c_str()`). -/
def importSymbolTable (env : Collaborators) (files : SymbolFiles) (w : MainWindow)
    (path : String) : Bool × MainWindow :=
  match (env.fileReadAllText path).bind files.deserializeTable with
  | .ok syms =>
    let w1 := { w with events := w.events ++
      [UiEvent.information "Import successful"
        (c_str ("Successfully imported symbols from " ++ path))] }
    let addons := w1.activeAddons
    let w2 := setActiveAddons w1 []
    let w3 := { w2 with symbolTable := syms
                        currentSymbolTablePath := path
                        saveSymbolsEnabled := true
                        symbolsDialog := w2.symbolsDialog.map (fun _ => syms) }
    (true, setActiveAddons w3 addons)
  | .error e =>
    (false, { w with events := w.events ++
      [UiEvent.warning "Import failed"
        (c_str ("Failed to import symbols from " ++ path ++ " Error: " ++ e.what))] })

/-- The function `MainWindow::saveSymbolTablePathHistory()`. The handler is
`catch (const std::exception &e)`. -/
def saveSymbolTablePathHistory (env : Collaborators) (files : SymbolFiles) (w : MainWindow) :
    MainWindow :=
  if w.settings.value files.SETTING_KEY_SAVE_SYM_HISTORY files.SETTING_DEFAULT_SAVE_SYM_HISTORY = 0 then
    w
  else
    let failed (e : CppException) : MainWindow :=
      { w with events := w.events ++
        [UiEvent.warning "Failed to save symbol table history" e.what] }
    match files.serializeSet w.symbolTablePathHistory with
    | .error e => failed e
    | .ok text =>
      match files.fileWriteAllText (env.appDataDirectory ++ SYMBOL_TABLE_HISTORY_FILE) text with
      | some e => failed e
      | none => w

/-- The function `MainWindow::updateSymbolHistoryMenu()`: the menu lists the
history from its greatest path down, each entry by its C string `rev->c_str()`. -/
def updateSymbolHistoryMenu (w : MainWindow) : MainWindow :=
  { w with events := w.events ++
      [UiEvent.recentMenu (w.symbolTablePathHistory.reverse.map c_str)] }

/-- The slot `MainWindow::onActionOpenSymbolTable()`; `execResult` is what
`dialog.exec()` returns and `selectedFiles` what `dialog.selectedFiles()` returns. -/
def onActionOpenSymbolTable (env : Collaborators) (files : SymbolFiles) (w : MainWindow)
    (execResult : Int) (selectedFiles : List String) : MainWindow :=
  if execResult = 0 then
    w
  else
    match selectedFiles with
    | [path] =>
      let imported := importSymbolTable env files w path
      if imported.1 then
        let w1 := { imported.2 with
          symbolTablePathHistory := imported.2.symbolTablePathHistory.insert path }
        updateSymbolHistoryMenu (saveSymbolTablePathHistory env files w1)
      else
        imported.2
    | _ => w

end MainWindow

/-! ## More concrete inputs -/

/-- A number formatter for concrete inputs that parses the text `1.5` (to the
value `3 * 2 ^ -1`, at whatever bit precision) and rejects every other text;
`1.5` has one decimal, every other text none. -/
def parsingFormat : NumberFormat :=
  { getDecimals := fun text => if text = "1.5" then 1 else 0
    fromDecimal := fun text bits _ =>
      if text = "1.5" then .ok ⟨3, -1, bits⟩ else .error (.runtime_error "not a decimal numeral")
    toDecimal := fun _ _ _ => .ok "0"
    digits2bits := fun n => 4 * n
    bits2digits := fun n => n / 4
    defaultPrecision := 64 }

/-- The formatter `parsingFormat`, except that `fromDecimal` rejects every
call whose bit precision is not 12. -/
def probingFormat : NumberFormat :=
  { parsingFormat with
    fromDecimal := fun text bits rnd =>
      if bits = 12 then parsingFormat.fromDecimal text bits rnd
      else .error (.runtime_error "another precision") }

/-- The sample table with the function `f(a, b) = a + b` added. -/
def sampleFunctionTable : SymbolTable :=
  sampleTable.setFunction "f" ⟨"f", "a + b", ["a", "b"]⟩

/-- File collaborators for concrete inputs: no symbol-table document
deserializes, writing succeeds, the history is saved. -/
def sampleFiles : SymbolFiles :=
  { deserializeTable := fun _ => .error (.exception "parse error")
    serializeSet := fun _ => .ok ""
    fileWriteAllText := fun _ _ => none
    SETTING_KEY_SAVE_SYM_HISTORY := "save_symbol_history"
    SETTING_DEFAULT_SAVE_SYM_HISTORY := 1 }

/-- Collaborators for the history file: the history document holds the paths
`/a`, `/b` and `/c`. -/
def historyCollaborators : Collaborators :=
  { sampleCollaborators "precision 64" "a b" with
    deserializeSet := fun _ => .ok ["/a", "/b", "/c"] }


/-- A number formatter for concrete inputs whose `toDecimal` prints the
significand of the value (`1`, `2` or `?`) and throws for the significand `0`. -/
def printingFormat : NumberFormat :=
  { sampleFormat with
    toDecimal := fun v _ _ =>
      if v.significand = 0 then .error (.runtime_error "cannot print")
      else .ok (if v.significand = 1 then "1" else if v.significand = 2 then "2" else "?") }

/-- A name with a NUL character after its first letter: the text `k`, NUL, `z`. -/
def nulName : String := String.mk ['k', Char.ofNat 0, 'z']

/-- A value map with the names `k` and `nulName`, whose C strings are equal. -/
def nulValues : StdMap ArithmeticType := [("k", ⟨1, 0, 64⟩), (nulName, ⟨2, 0, 64⟩)]

/-- The digit counts of `nulValues`. -/
def nulDecimals : StdMap Int := [("k", 2), (nulName, 2)]

theorem PyTuple_SetItem_calls (p pos o : Nat) (st : PyState) :
    (PyTuple_SetItem p pos o st).2.calls = st.calls := by
  unfold PyTuple_SetItem
  split
  · split <;> rfl
  · rfl

theorem fillArgs_calls (args : Nat) (rest : List Double) :
    ∀ (i : Nat) (st : PyState), (ScriptHandler.fillArgs args rest i st).calls = st.calls := by
  induction rest with
  | nil => intro i st; rfl
  | cons v rest ih =>
    intro i st
    simp only [ScriptHandler.fillArgs]
    rw [ih, PyTuple_SetItem_calls]
    rfl

theorem prepare_calls (a : List Double) (st : PyState) :
    (ScriptHandler.prepare a st).2.calls = st.calls := by
  simp only [ScriptHandler.prepare]
  rw [fillArgs_calls]
  rfl

/-- One round of the loop on a heap of the shape `pre ++ tuple :: floats`. -/
theorem fillArgs_step_heap (pre : List PyValue) (slots : List (Option Nat)) (fl : List PyValue)
    (v : Double) (i : Nat) (st : PyState)
    (hheap : st.heap = pre ++ PyValue.tuple slots :: fl) (hi : i < slots.length) :
    (PyTuple_SetItem pre.length i (PyFloat_FromDouble v st).1 (PyFloat_FromDouble v st).2).2.heap
      = pre ++ PyValue.tuple (slots.set i (some (pre.length + 1 + fl.length)))
          :: (fl ++ [PyValue.float v]) := by
  have hlen : st.heap.length = pre.length + 1 + fl.length := by
    rw [hheap]; simp; omega
  have hget : (st.heap ++ [PyValue.float v])[pre.length]? = some (PyValue.tuple slots) := by
    rw [hheap, List.append_assoc, List.getElem?_append_right (le_refl _)]
    simp
  simp only [PyFloat_FromDouble, PyState.alloc, PyTuple_SetItem, hget, hi, if_true, hlen]
  rw [hheap]
  simp

/-- The heap after the loop: the tuple's slots from `i` on point to the
floats appended behind it, in the order of the arguments. -/
theorem fillArgs_heap (pre : List PyValue) (rest : List Double) :
    ∀ (slots : List (Option Nat)) (fl : List PyValue) (i : Nat) (st : PyState),
      st.heap = pre ++ PyValue.tuple slots :: fl → i + rest.length ≤ slots.length →
      ∃ slots2 : List (Option Nat),
        (ScriptHandler.fillArgs pre.length rest i st).heap
          = pre ++ PyValue.tuple slots2 :: (fl ++ rest.map PyValue.float)
        ∧ slots2.length = slots.length
        ∧ ∀ j, j < slots.length →
            slots2[j]? = if i ≤ j ∧ j < i + rest.length
              then some (some (pre.length + 1 + fl.length + (j - i))) else slots[j]? := by
  induction rest with
  | nil =>
    intro slots fl i st hheap _
    refine ⟨slots, ?_, rfl, ?_⟩
    · simpa [ScriptHandler.fillArgs] using hheap
    · intro j _
      have : ¬ (i ≤ j ∧ j < i + ([] : List Double).length) := by simp
      rw [if_neg this]
  | cons v rest ih =>
    intro slots fl i st hheap hle
    have hi : i < slots.length := by simp at hle; omega
    have hstep := fillArgs_step_heap pre slots fl v i st hheap hi
    obtain ⟨slots2, h1, h2, h3⟩ := ih (slots.set i (some (pre.length + 1 + fl.length)))
      (fl ++ [PyValue.float v]) (i + 1) _ hstep (by simp at hle ⊢; omega)
    refine ⟨slots2, ?_, ?_, ?_⟩
    · simp only [ScriptHandler.fillArgs]
      rw [h1]
      simp
    · simpa using h2
    · intro j hj
      rw [h3 j (by simpa using hj)]
      simp only [List.length_append, List.length_cons, List.length_nil, List.getElem?_set]
      by_cases hij : i = j
      · subst hij
        simp [hi]
      · by_cases hlt : i + 1 ≤ j ∧ j < i + 1 + rest.length
        · have h4 : i ≤ j ∧ j < i + (rest.length + 1) := by omega
          rw [if_pos hlt, if_pos h4]
          congr 2
          omega
        · have h4 : ¬ (i ≤ j ∧ j < i + (rest.length + 1)) := by omega
          rw [if_neg hlt, if_neg h4, if_neg hij]

/-- The items of the argument tuple when `run` reaches the call: the floats
of the argument vector, in order. -/
theorem prepare_tupleItems (a : List Double) (st : PyState) :
    (ScriptHandler.prepare a st).2.tupleItems (ScriptHandler.prepare a st).1
      = a.map (fun d => some (PyValue.float d)) := by
  obtain ⟨slots2, h1, h2, h3⟩ := fillArgs_heap st.heap a (List.replicate a.length none) [] 0
    (PyTuple_New a.length st).2 (by simp [PyTuple_New, PyState.alloc]) (by simp)
  have hargs : (ScriptHandler.prepare a st).1 = st.heap.length := rfl
  have hst : (ScriptHandler.prepare a st).2
      = ScriptHandler.fillArgs st.heap.length a 0 (PyTuple_New a.length st).2 := rfl
  simp only [List.nil_append] at h1
  rw [hargs, hst]
  unfold PyState.tupleItems
  rw [h1]
  have hget : (st.heap ++ PyValue.tuple slots2 :: a.map PyValue.float)[st.heap.length]?
      = some (PyValue.tuple slots2) := by
    rw [List.getElem?_append_right (le_refl _)]
    simp
  rw [hget]
  simp only [List.length_replicate] at h2 h3
  apply List.ext_getElem?
  intro j
  by_cases hj : j < a.length
  · have hs : slots2[j]? = some (some (st.heap.length + 1 + j)) := by
      rw [h3 j hj]
      simp [hj]
    have hr : (st.heap ++ PyValue.tuple slots2 :: a.map PyValue.float)[st.heap.length + 1 + j]?
        = some (PyValue.float a[j]) := by
      rw [List.getElem?_append_right (by omega)]
      have : st.heap.length + 1 + j - st.heap.length = j + 1 := by omega
      rw [this]
      simp [hj]
    simp only [List.getElem?_map, hs, Option.map_some, Option.bind_some]
    simpa [hj] using hr
  · have h5 : a.length ≤ j := by omega
    simp [List.getElem?_eq_none, h5, h2]


theorem PyObject_Call_raise (c : PyCallable) (args : Nat)
    (kwargs : Option (List (String × PyValue))) (st : PyState) (m : String)
    (h : c.body (st.tupleItems args) kwargs = PyOutcome.raise m) :
    PyObject_Call c args kwargs st
      = (none, { st with calls := st.calls ++ [PyCallRecord.mk (st.tupleItems args) kwargs],
                         err := some m }) := by
  simp only [PyObject_Call, h]

theorem PyObject_Call_pending (c : PyCallable) (args : Nat)
    (kwargs : Option (List (String × PyValue))) (st : PyState) (v : PyValue) (e : String)
    (h : c.body (st.tupleItems args) kwargs = PyOutcome.ret v) (he : st.err = some e) :
    PyObject_Call c args kwargs st
      = (none, { st with calls := st.calls ++ [PyCallRecord.mk (st.tupleItems args) kwargs],
                         err := some "SystemError: callable returned a result with an exception set" }) := by
  simp only [PyObject_Call, h, he]

theorem PyObject_Call_ret (c : PyCallable) (args : Nat)
    (kwargs : Option (List (String × PyValue))) (st : PyState) (v : PyValue)
    (h : c.body (st.tupleItems args) kwargs = PyOutcome.ret v) (he : st.err = none) :
    PyObject_Call c args kwargs st
      = (some st.heap.length,
          { st with heap := st.heap ++ [v], owned := st.owned ++ [st.heap.length],
                    calls := st.calls ++ [PyCallRecord.mk (st.tupleItems args) kwargs] }) := by
  simp only [PyObject_Call, h, he, PyState.alloc]

theorem PyObject_Call_calls (c : PyCallable) (args : Nat)
    (kwargs : Option (List (String × PyValue))) (st : PyState) :
    (PyObject_Call c args kwargs st).2.calls
      = st.calls ++ [PyCallRecord.mk (st.tupleItems args) kwargs] := by
  cases h : c.body (st.tupleItems args) kwargs with
  | raise m => rw [PyObject_Call_raise c args kwargs st m h]
  | ret v =>
    cases he : st.err with
    | some e => rw [PyObject_Call_pending c args kwargs st v e h he]
    | none => rw [PyObject_Call_ret c args kwargs st v h he]

theorem PyFloat_AsDouble_calls (o : Nat) (st : PyState) :
    (PyFloat_AsDouble o st).2.calls = st.calls := by
  unfold PyFloat_AsDouble
  split
  · split <;> rfl
  · rfl

/-- The call record `run` leaves in the log, whatever the outcome. -/
theorem run_calls (c : PyCallable) (a : List Double) (st : PyState) :
    (ScriptHandler.run c a st).2.calls
      = (ScriptHandler.prepare a st).2.calls
        ++ [PyCallRecord.mk ((ScriptHandler.prepare a st).2.tupleItems (ScriptHandler.prepare a st).1) none] := by
  rw [← PyObject_Call_calls c]
  unfold ScriptHandler.run
  simp only []
  split
  · rfl
  · split
    · simp only [PyUtil.getError, PyFloat_AsDouble_calls]
      rfl
    · simp only [Py_DECREF, PyFloat_AsDouble_calls]

/-- C1. `ScriptHandler::run(c, a)` throws if and only if the call of the
callable returns no result or the returned object cannot be converted to a
double; the exception is a `std::runtime_error` carrying the text of the
error the foreign runtime set; in every other case `run` returns the double
value of the callable's result. Here `call` is `PyObject_Call(c, args, PyNull)`
in the state in which `run` reaches line 15. -/
theorem ScriptHandler_run_fails_iff (c : PyCallable) (a : List Double) (st : PyState) :
    let args := (ScriptHandler.prepare a st).1
    let call := PyObject_Call c args none (ScriptHandler.prepare a st).2
    let r := ScriptHandler.run c a st
    ((∃ e, r.1 = Except.error e) ↔
        (call.1 = none ∨ ∃ o, call.1 = some o ∧ (call.2.heap[o]?).bind PyValue.asDouble = none))
    ∧ (call.1 = none →
        ∃ msg, PyErr_Occurred call.2 = some msg ∧ r.1 = Except.error (CppException.runtime_error msg))
    ∧ (∀ o, call.1 = some o → (call.2.heap[o]?).bind PyValue.asDouble = none →
        ∃ msg, PyErr_Occurred (PyFloat_AsDouble o (Py_DECREF args call.2)).2 = some msg
          ∧ r.1 = Except.error (CppException.runtime_error msg))
    ∧ (∀ o d, call.1 = some o → (call.2.heap[o]?).bind PyValue.asDouble = some d →
        r.1 = Except.ok d) := by
  intro args call r
  have hrun : r = (match call.1 with
      | none =>
        (Except.error (CppException.runtime_error (PyUtil.getError (Py_DECREF args call.2)).1),
          (PyUtil.getError (Py_DECREF args call.2)).2)
      | some pyRet =>
        match PyErr_Occurred (PyFloat_AsDouble pyRet (Py_DECREF args call.2)).2 with
        | some _ =>
          (Except.error (CppException.runtime_error
              (PyUtil.getError (PyFloat_AsDouble pyRet (Py_DECREF args call.2)).2).1),
            (PyUtil.getError (PyFloat_AsDouble pyRet (Py_DECREF args call.2)).2).2)
        | none =>
          (Except.ok (PyFloat_AsDouble pyRet (Py_DECREF args call.2)).1,
            Py_DECREF pyRet (PyFloat_AsDouble pyRet (Py_DECREF args call.2)).2)) := rfl
  have hnone : call.1 = none →
      ∃ msg, PyErr_Occurred call.2 = some msg ∧ r.1 = Except.error (CppException.runtime_error msg) := by
    intro h
    have herr : ∃ msg, call.2.err = some msg := by
      cases hb : c.body ((ScriptHandler.prepare a st).2.tupleItems args) none with
      | raise m =>
        exact ⟨m, by simp only [call, PyObject_Call_raise c args none _ m hb]⟩
      | ret v =>
        cases he : (ScriptHandler.prepare a st).2.err with
        | some e =>
          exact ⟨"SystemError: callable returned a result with an exception set",
            by simp only [call, PyObject_Call_pending c args none _ v e hb he]⟩
        | none =>
          simp only [call, PyObject_Call_ret c args none _ v hb he] at h
          cases h
    obtain ⟨msg, hmsg⟩ := herr
    refine ⟨msg, hmsg, ?_⟩
    rw [hrun, h]
    simp [PyUtil.getError, Py_DECREF, hmsg]
  have hsome : ∀ o, call.1 = some o →
      call.2.err = none ∧ ∃ v, call.2.heap[o]? = some v := by
    intro o h
    cases hb : c.body ((ScriptHandler.prepare a st).2.tupleItems args) none with
    | raise m =>
      simp only [call, PyObject_Call_raise c args none _ m hb] at h
      cases h
    | ret v =>
      cases he : (ScriptHandler.prepare a st).2.err with
      | some e =>
        simp only [call, PyObject_Call_pending c args none _ v e hb he] at h
        cases h
      | none =>
        simp only [call, PyObject_Call_ret c args none _ v hb he] at h ⊢
        simp only [Option.some.injEq] at h
        subst h
        exact ⟨he, v, by simp⟩
  have hbad : ∀ o, call.1 = some o → (call.2.heap[o]?).bind PyValue.asDouble = none →
      ∃ msg, PyErr_Occurred (PyFloat_AsDouble o (Py_DECREF args call.2)).2 = some msg
        ∧ r.1 = Except.error (CppException.runtime_error msg) := by
    intro o h hconv
    obtain ⟨_, v, hv⟩ := hsome o h
    rw [hv] at hconv
    simp only [Option.some_bind] at hconv
    have hf : PyFloat_AsDouble o (Py_DECREF args call.2)
        = (Double.minusOne, { Py_DECREF args call.2 with
            err := some ("TypeError: must be real number, not " ++ v.typeName) }) := by
      simp only [PyFloat_AsDouble, Py_DECREF, hv, hconv]
    refine ⟨_, by rw [hf]; rfl, ?_⟩
    rw [hrun, h]
    simp only [hf, PyErr_Occurred, PyUtil.getError]
    rfl
  have hgood : ∀ o d, call.1 = some o → (call.2.heap[o]?).bind PyValue.asDouble = some d →
      r.1 = Except.ok d := by
    intro o d h hconv
    obtain ⟨hc, v, hv⟩ := hsome o h
    rw [hv] at hconv
    simp only [Option.some_bind] at hconv
    have hf : PyFloat_AsDouble o (Py_DECREF args call.2) = (d, Py_DECREF args call.2) := by
      simp only [PyFloat_AsDouble, Py_DECREF, hv, hconv]
    have hd : (Py_DECREF args call.2).err = none := hc
    rw [hrun, h]
    simp only [hf, PyErr_Occurred, hd]
  refine ⟨⟨?_, ?_⟩, hnone, hbad, hgood⟩
  · rintro ⟨e, he⟩
    cases h : call.1 with
    | none => exact Or.inl rfl
    | some o =>
      right
      refine ⟨o, rfl, ?_⟩
      cases hconv : (call.2.heap[o]?).bind PyValue.asDouble with
      | none => rfl
      | some d =>
        rw [hgood o d h hconv] at he
        cases he
  · rintro (h | ⟨o, h, hconv⟩)
    · obtain ⟨msg, _, hr⟩ := hnone h
      exact ⟨_, hr⟩
    · obtain ⟨msg, _, hr⟩ := hbad o h hconv
      exact ⟨_, hr⟩

/-- C2. A callable that returns an object which is no number: `run` throws
after `PyFloat_AsDouble` fails, and the reference to the result object (address
2) is still owned, never released; only the argument tuple (address 0) was
released. With a callable that returns a float, and with one that raises,
`run` owns no reference when it exits. -/
theorem ScriptHandler_run_leaks_result_on_conversion_failure :
    (ScriptHandler.run returnsText oneArgument PyState.initial).1
        = Except.error (CppException.runtime_error "TypeError: must be real number, not str")
    ∧ (ScriptHandler.run returnsText oneArgument PyState.initial).2.owned = [2]
    ∧ (ScriptHandler.run returnsText oneArgument PyState.initial).2.released = [0]
    ∧ (ScriptHandler.run returnsFloat oneArgument PyState.initial).2.owned = []
    ∧ (ScriptHandler.run returnsFloat oneArgument PyState.initial).2.released = [0, 2]
    ∧ (ScriptHandler.run raises oneArgument PyState.initial).2.owned = []
    ∧ (ScriptHandler.run raises oneArgument PyState.initial).2.released = [0] := by
  refine ⟨rfl, ?_, ?_, ?_, ?_, ?_, ?_⟩ <;> decide

/-- C3. For every argument vector `a`, `ScriptHandler::run` invokes the
callable exactly once, with a positional tuple of `a.size()` elements whose
`i`-th element is the float `a[i]`, in the order of `a`, and with no keyword
arguments. -/
theorem ScriptHandler_run_positional_args (c : PyCallable) (a : List Double) (st : PyState) :
    (ScriptHandler.run c a st).2.calls
        = st.calls ++ [PyCallRecord.mk (a.map (fun d => some (PyValue.float d))) none]
    ∧ ∃ record, (ScriptHandler.run c a st).2.calls = st.calls ++ [record]
        ∧ record.kwargs = none
        ∧ record.args.length = a.length
        ∧ ∀ (i : Nat) (h : i < a.length), record.args[i]? = some (some (PyValue.float a[i])) := by
  have h : (ScriptHandler.run c a st).2.calls
      = st.calls ++ [PyCallRecord.mk (a.map (fun d => some (PyValue.float d))) none] := by
    rw [run_calls, prepare_calls, prepare_tupleItems]
  refine ⟨h, _, h, rfl, by simp, ?_⟩
  intro i hi
  simp [hi]

/-! ## Maps and the symbol table -/

theorem StdMap.valueOf_assign_self {V : Type} (m : StdMap V) (k : String) (v : V) :
    (m.assign k v).valueOf k = some v := by
  induction m with
  | nil => simp [StdMap.assign, StdMap.valueOf]
  | cons p rest ih =>
    obtain ⟨k1, v1⟩ := p
    simp only [StdMap.assign]
    split
    · simp [StdMap.valueOf]
    · split
      · simp [StdMap.valueOf]
      · rename_i h1 _
        have : ¬ k1 = k := fun h => h1 h.symm
        simp [StdMap.valueOf, this, ih]

theorem StdMap.valueOf_assign_ne {V : Type} (m : StdMap V) (k k2 : String) (v : V) (h : k2 ≠ k) :
    (m.assign k v).valueOf k2 = m.valueOf k2 := by
  have hk : ¬ k = k2 := fun e => h e.symm
  induction m with
  | nil => simp [StdMap.assign, StdMap.valueOf, hk]
  | cons p rest ih =>
    obtain ⟨k1, v1⟩ := p
    simp only [StdMap.assign]
    split
    · rename_i h1
      subst h1
      simp [StdMap.valueOf, hk]
    · split
      · simp [StdMap.valueOf, hk]
      · simp [StdMap.valueOf, ih]

theorem StdMap.eraseKey_cons {V : Type} (k1 : String) (v1 : V) (rest : StdMap V) (k : String) :
    StdMap.eraseKey ((k1, v1) :: rest) k
      = if k1 = k then StdMap.eraseKey rest k else (k1, v1) :: StdMap.eraseKey rest k := by
  unfold StdMap.eraseKey
  by_cases h : k1 = k <;> simp [List.filter, h]

theorem StdMap.valueOf_eraseKey_self {V : Type} (m : StdMap V) (k : String) :
    (m.eraseKey k).valueOf k = none := by
  induction m with
  | nil => rfl
  | cons p rest ih =>
    obtain ⟨k1, v1⟩ := p
    rw [StdMap.eraseKey_cons]
    by_cases h : k1 = k
    · rw [if_pos h]; exact ih
    · rw [if_neg h]
      simp only [StdMap.valueOf, if_neg h]
      exact ih

theorem StdMap.valueOf_eraseKey_ne {V : Type} (m : StdMap V) (k k2 : String) (h : k2 ≠ k) :
    (m.eraseKey k).valueOf k2 = m.valueOf k2 := by
  induction m with
  | nil => rfl
  | cons p rest ih =>
    obtain ⟨k1, v1⟩ := p
    rw [StdMap.eraseKey_cons]
    by_cases h1 : k1 = k
    · have h2 : ¬ k1 = k2 := fun e => h (e.symm.trans h1)
      rw [if_pos h1]
      simp only [StdMap.valueOf, if_neg h2]
      exact ih
    · rw [if_neg h1]
      simp only [StdMap.valueOf, ih]

theorem StdMap.hasKey_assign {V : Type} (m : StdMap V) (k k2 : String) (v : V) :
    (m.assign k v).hasKey k2 = (decide (k2 = k) || m.hasKey k2) := by
  by_cases h : k2 = k
  · subst h
    simp [StdMap.hasKey, StdMap.valueOf_assign_self]
  · simp [StdMap.hasKey, StdMap.valueOf_assign_ne m k k2 v h, h]

theorem StdMap.hasKey_eraseKey {V : Type} (m : StdMap V) (k k2 : String) :
    (m.eraseKey k).hasKey k2 = (!decide (k2 = k) && m.hasKey k2) := by
  by_cases h : k2 = k
  · subst h
    simp [StdMap.hasKey, StdMap.valueOf_eraseKey_self]
  · simp [StdMap.hasKey, StdMap.valueOf_eraseKey_ne m k k2 h, h]

namespace SymbolTable

theorem owners_remove (t : SymbolTable) (n k : String) :
    (t.remove n).owners k = if k = n then 0 else t.owners k := by
  by_cases h : k = n <;>
    simp [owners, remove, hasVariable, hasConstant, hasFunction, hasScript,
      StdMap.hasKey_eraseKey, h]

theorem owners_setVariable (t : SymbolTable) (n k : String) (v : ArithmeticType) (d : Int) :
    (t.setVariable n v d).owners k = if k = n then 1 else t.owners k := by
  by_cases h : k = n <;>
    simp [owners, setVariable, hasVariable, hasConstant, hasFunction, hasScript,
      StdMap.hasKey_eraseKey, StdMap.hasKey_assign, h]

theorem owners_setConstant (t : SymbolTable) (n k : String) (v : ArithmeticType) (d : Int) :
    (t.setConstant n v d).owners k = if k = n then 1 else t.owners k := by
  by_cases h : k = n <;>
    simp [owners, setConstant, hasVariable, hasConstant, hasFunction, hasScript,
      StdMap.hasKey_eraseKey, StdMap.hasKey_assign, h]

theorem owners_setFunction (t : SymbolTable) (n k : String) (f : Function) :
    (t.setFunction n f).owners k = if k = n then 1 else t.owners k := by
  by_cases h : k = n <;>
    simp [owners, setFunction, hasVariable, hasConstant, hasFunction, hasScript,
      StdMap.hasKey_eraseKey, StdMap.hasKey_assign, h]

theorem unique_remove (t : SymbolTable) (n : String) (h : t.Unique) : (t.remove n).Unique := by
  intro k
  rw [owners_remove]
  split
  · omega
  · exact h k

theorem unique_setVariable (t : SymbolTable) (n : String) (v : ArithmeticType) (d : Int)
    (h : t.Unique) : (t.setVariable n v d).Unique := by
  intro k
  rw [owners_setVariable]
  split
  · omega
  · exact h k

theorem unique_setConstant (t : SymbolTable) (n : String) (v : ArithmeticType) (d : Int)
    (h : t.Unique) : (t.setConstant n v d).Unique := by
  intro k
  rw [owners_setConstant]
  split
  · omega
  · exact h k

theorem unique_setFunction (t : SymbolTable) (n : String) (f : Function)
    (h : t.Unique) : (t.setFunction n f).Unique := by
  intro k
  rw [owners_setFunction]
  split
  · omega
  · exact h k

end SymbolTable

/-! ## Properties of the symbols editor -/

namespace SymbolsEditor

theorem refreshVariables_symbolTable (nf : NumberFormat) (t : SymbolTable) (events : List UiEvent) :
    (refreshVariables nf t events).symbolTable = t := by
  unfold refreshVariables
  split <;> rfl

theorem unique_onVariableAdded (nf : NumberFormat) (t : SymbolTable) (name value : String)
    (h : t.Unique) : (onVariableAdded nf t name value).symbolTable.Unique := by
  unfold onVariableAdded
  split_ifs
  all_goals first
    | exact h
    | exact SymbolTable.unique_setVariable _ _ _ _ h

theorem unique_onConstantAdded (nf : NumberFormat) (t : SymbolTable) (name value : String)
    (h : t.Unique) : (onConstantAdded nf t name value).symbolTable.Unique := by
  unfold onConstantAdded
  split_ifs
  all_goals first
    | exact h
    | exact SymbolTable.unique_setConstant _ _ _ _ h

theorem unique_onFunctionAdded (t : SymbolTable) (name : String)
    (h : t.Unique) : (onFunctionAdded t name).symbolTable.Unique := by
  unfold onFunctionAdded
  split_ifs
  all_goals first
    | exact h
    | exact SymbolTable.unique_setFunction _ _ _ h

theorem unique_onVariableNameChanged (nf : NumberFormat) (t : SymbolTable)
    (originalName name : String) (answer : StandardButton)
    (h : t.Unique) : (onVariableNameChanged nf t originalName name answer).symbolTable.Unique := by
  unfold onVariableNameChanged
  split_ifs
  · exact SymbolTable.unique_remove _ _ h
  · exact h
  · rw [refreshVariables_symbolTable]; exact h
  · rw [refreshVariables_symbolTable]; exact h
  · rw [refreshVariables_symbolTable]; exact h
  · rw [refreshVariables_symbolTable]; exact h
  · cases t.getVariables.at originalName with
    | error e => exact h
    | ok value =>
      cases t.getVariableDecimals.at originalName with
      | error e => exact h
      | ok decimals =>
        exact SymbolTable.unique_remove _ _ (SymbolTable.unique_setVariable _ _ _ _ h)

theorem unique_onConstantNameChanged (nf : NumberFormat) (t : SymbolTable)
    (originalName name : String) (answer : StandardButton)
    (h : t.Unique) : (onConstantNameChanged nf t originalName name answer).symbolTable.Unique := by
  unfold onConstantNameChanged
  split_ifs
  · exact SymbolTable.unique_remove _ _ h
  · exact h
  · rw [refreshVariables_symbolTable]; exact h
  · rw [refreshVariables_symbolTable]; exact h
  · rw [refreshVariables_symbolTable]; exact h
  · rw [refreshVariables_symbolTable]; exact h
  · cases t.getConstants.at originalName with
    | error e => exact h
    | ok value =>
      cases t.getConstantDecimals.at name with
      | error e => exact h
      | ok decimals =>
        exact SymbolTable.unique_remove _ _ (SymbolTable.unique_setConstant _ _ _ _ h)

theorem unique_onFunctionNameChanged (t : SymbolTable)
    (originalName name : String) (answer : StandardButton)
    (h : t.Unique) : (onFunctionNameChanged t originalName name answer).symbolTable.Unique := by
  unfold onFunctionNameChanged
  split_ifs
  · exact SymbolTable.unique_remove _ _ h
  · exact h
  · exact h
  · exact h
  · exact h
  · exact h
  · cases t.getFunctions.at originalName with
    | error e => exact h
    | ok f => exact SymbolTable.unique_setFunction _ _ _ (SymbolTable.unique_remove _ _ h)

theorem unique_onVariableValueChanged (nf : NumberFormat) (t : SymbolTable) (name value : String)
    (h : t.Unique) : (onVariableValueChanged nf t name value).symbolTable.Unique := by
  unfold onVariableValueChanged
  cases t.getVariables.at name with
  | error e => exact h
  | ok originalValue =>
    cases nf.fromDecimal value (nf.digits2bits (QString.size value)) mpfr_rnd_t.MPFR_RNDN with
    | ok newValue => exact SymbolTable.unique_setVariable _ _ _ _ h
    | error e =>
      cases t.getVariableDecimals.at name with
      | error e => exact h
      | ok kept => exact SymbolTable.unique_setVariable _ _ _ _ h

theorem unique_onConstantValueChanged (nf : NumberFormat) (t : SymbolTable) (name value : String)
    (h : t.Unique) : (onConstantValueChanged nf t name value).symbolTable.Unique := by
  unfold onConstantValueChanged
  cases t.getConstants.at name with
  | error e => exact h
  | ok originalValue =>
    cases nf.fromDecimal value (nf.digits2bits (QString.size value)) mpfr_rnd_t.MPFR_RNDN with
    | ok newValue => exact SymbolTable.unique_setConstant _ _ _ _ h
    | error e =>
      cases t.getConstantDecimals.at name with
      | error e => exact h
      | ok kept => exact SymbolTable.unique_setConstant _ _ _ _ h

theorem unique_onFunctionBodyChanged (t : SymbolTable) (name body : String)
    (h : t.Unique) : (onFunctionBodyChanged t name body).symbolTable.Unique := by
  unfold onFunctionBodyChanged
  cases t.getFunctions.at name with
  | error e => exact h
  | ok f => exact SymbolTable.unique_setFunction _ _ _ h

theorem unique_onFunctionArgsChanged (t : SymbolTable) (name : String) (args : List String)
    (h : t.Unique) : (onFunctionArgsChanged t name args).symbolTable.Unique := by
  unfold onFunctionArgsChanged
  cases t.getFunctions.at name with
  | error e => exact h
  | ok f => exact SymbolTable.unique_setFunction _ _ _ h

end SymbolsEditor

theorem SymbolTable.unique_empty : SymbolTable.empty.Unique := by
  intro k
  simp [SymbolTable.owners, SymbolTable.empty, SymbolTable.hasVariable, SymbolTable.hasConstant,
    SymbolTable.hasFunction, SymbolTable.hasScript, StdMap.hasKey, StdMap.valueOf]

theorem sampleTable_unique : sampleTable.Unique :=
  SymbolTable.unique_setVariable _ _ _ _
    (SymbolTable.unique_setConstant _ _ _ _ SymbolTable.unique_empty)

/-- C6. Cross-variant name uniqueness is an invariant of the symbols editor:
if no name of the table is owned by more than one of the four variants before
a slot runs, the same holds for the editor's table after each of the add,
rename, delete, value-change, body-change and argument-change slots, for
every input (and whether or not the slot throws). -/
theorem SymbolsEditor_slots_preserve_uniqueness (nf : NumberFormat) (t : SymbolTable)
    (h : t.Unique) :
    (∀ name value, (SymbolsEditor.onVariableAdded nf t name value).symbolTable.Unique)
    ∧ (∀ originalName name answer,
        (SymbolsEditor.onVariableNameChanged nf t originalName name answer).symbolTable.Unique)
    ∧ (∀ name value, (SymbolsEditor.onVariableValueChanged nf t name value).symbolTable.Unique)
    ∧ (∀ name value, (SymbolsEditor.onConstantAdded nf t name value).symbolTable.Unique)
    ∧ (∀ originalName name answer,
        (SymbolsEditor.onConstantNameChanged nf t originalName name answer).symbolTable.Unique)
    ∧ (∀ name value, (SymbolsEditor.onConstantValueChanged nf t name value).symbolTable.Unique)
    ∧ (∀ name, (SymbolsEditor.onFunctionAdded t name).symbolTable.Unique)
    ∧ (∀ originalName name answer,
        (SymbolsEditor.onFunctionNameChanged t originalName name answer).symbolTable.Unique)
    ∧ (∀ name body, (SymbolsEditor.onFunctionBodyChanged t name body).symbolTable.Unique)
    ∧ (∀ name args, (SymbolsEditor.onFunctionArgsChanged t name args).symbolTable.Unique) :=
  ⟨fun name value => SymbolsEditor.unique_onVariableAdded nf t name value h,
   fun o n a => SymbolsEditor.unique_onVariableNameChanged nf t o n a h,
   fun name value => SymbolsEditor.unique_onVariableValueChanged nf t name value h,
   fun name value => SymbolsEditor.unique_onConstantAdded nf t name value h,
   fun o n a => SymbolsEditor.unique_onConstantNameChanged nf t o n a h,
   fun name value => SymbolsEditor.unique_onConstantValueChanged nf t name value h,
   fun name => SymbolsEditor.unique_onFunctionAdded t name h,
   fun o n a => SymbolsEditor.unique_onFunctionNameChanged t o n a h,
   fun name body => SymbolsEditor.unique_onFunctionBodyChanged t name body h,
   fun name args => SymbolsEditor.unique_onFunctionArgsChanged t name args h⟩

/-- C6 at a concrete input: the sample table has unique names, and so has the
table after adding the variable `c` and after renaming the constant `a`. -/
theorem SymbolsEditor_slots_preserve_uniqueness_witness :
    sampleTable.Unique
    ∧ (SymbolsEditor.onVariableAdded sampleFormat sampleTable "c" "1.5").symbolTable.Unique
    ∧ (SymbolsEditor.onConstantNameChanged sampleFormat sampleTable "a" "c"
        StandardButton.Yes).symbolTable.Unique :=
  have h := SymbolsEditor_slots_preserve_uniqueness sampleFormat sampleTable sampleTable_unique
  ⟨sampleTable_unique, h.1 "c" "1.5", h.2.2.2.2.1 "a" "c" StandardButton.Yes⟩

theorem SymbolTable.hasVariable_setVariable_self (t : SymbolTable) (n : String)
    (v : ArithmeticType) (d : Int) : (t.setVariable n v d).hasVariable n = true := by
  simp [SymbolTable.setVariable, SymbolTable.hasVariable, StdMap.hasKey_assign]

/-- C5. For every symbol table, name and value text, `onVariableAdded` changes
the table if and only if the name is non-empty and no variable, constant,
function or script owns it; when the name is empty or owned by one of the
four variants the table is left exactly as it was, and otherwise the name is
a variable afterwards (and of no other variant). The slot never throws. -/
theorem onVariableAdded_changes_iff_fresh (nf : NumberFormat) (t : SymbolTable)
    (name value : String) :
    let r := SymbolsEditor.onVariableAdded nf t name value
    (r.symbolTable ≠ t ↔ (name ≠ "" ∧ t.hasVariable name = false ∧ t.hasConstant name = false
        ∧ t.hasFunction name = false ∧ t.hasScript name = false))
    ∧ ((name = "" ∨ t.hasVariable name = true ∨ t.hasConstant name = true
        ∨ t.hasFunction name = true ∨ t.hasScript name = true) → r.symbolTable = t)
    ∧ ((name ≠ "" ∧ t.hasVariable name = false ∧ t.hasConstant name = false
        ∧ t.hasFunction name = false ∧ t.hasScript name = false) →
        r.symbolTable.hasVariable name = true ∧ r.symbolTable.owners name = 1)
    ∧ r.thrown = none := by
  intro r
  have hkeep : (name = "" ∨ t.hasVariable name = true ∨ t.hasConstant name = true
      ∨ t.hasFunction name = true ∨ t.hasScript name = true) → r.symbolTable = t := by
    intro h
    simp only [r, SymbolsEditor.onVariableAdded, QString.isEmpty]
    split_ifs <;> first | rfl | simp_all
  have hadd : (name ≠ "" ∧ t.hasVariable name = false ∧ t.hasConstant name = false
      ∧ t.hasFunction name = false ∧ t.hasScript name = false) →
      r.symbolTable = t.setVariable name (SymbolsEditor.convertAdded nf value).1
        (SymbolsEditor.convertAdded nf value).2.1 := by
    rintro ⟨h0, h1, h2, h3, h4⟩
    simp [r, SymbolsEditor.onVariableAdded, QString.isEmpty, h0, h1, h2, h3, h4]
  have hthrown : r.thrown = none := by
    simp only [r, SymbolsEditor.onVariableAdded]
    split_ifs <;> rfl
  refine ⟨⟨?_, ?_⟩, hkeep, ?_, hthrown⟩
  · intro hne
    by_contra hcon
    apply hne
    apply hkeep
    by_cases h0 : name = ""
    · exact Or.inl h0
    · by_cases h1 : t.hasVariable name = true
      · exact Or.inr (Or.inl h1)
      · by_cases h2 : t.hasConstant name = true
        · exact Or.inr (Or.inr (Or.inl h2))
        · by_cases h3 : t.hasFunction name = true
          · exact Or.inr (Or.inr (Or.inr (Or.inl h3)))
          · by_cases h4 : t.hasScript name = true
            · exact Or.inr (Or.inr (Or.inr (Or.inr h4)))
            · exact absurd ⟨h0, by simpa using h1, by simpa using h2, by simpa using h3,
                by simpa using h4⟩ hcon
  · intro hfresh heq
    have hv : r.symbolTable.hasVariable name = true := by
      rw [hadd hfresh]
      exact SymbolTable.hasVariable_setVariable_self _ _ _ _
    rw [heq, hfresh.2.1] at hv
    cases hv
  · intro hfresh
    rw [hadd hfresh]
    refine ⟨SymbolTable.hasVariable_setVariable_self _ _ _ _, ?_⟩
    rw [SymbolTable.owners_setVariable, if_pos rfl]

/-- C9. The table has the constant `a = 1` with two digits and `b` is a fresh
name: `onConstantNameChanged("a", "b")` does not complete. It reads the digit
count with `getConstantDecimals().at("b")`, the new name, which throws
`std::out_of_range`; the table is left as it was, `a` is still the constant
and `b` is no constant. The variable slot, with `at(originalName)`, renames. -/
theorem onConstantNameChanged_throws_on_fresh_name :
    sampleTable.getConstants.valueOf "a" = some ⟨1, 0, 64⟩
    ∧ sampleTable.getConstantDecimals.valueOf "a" = some 2
    ∧ sampleTable.owns "b" = false
    ∧ (SymbolsEditor.onConstantNameChanged sampleFormat sampleTable "a" "b" StandardButton.Yes).thrown
        = some (CppException.out_of_range "map::at")
    ∧ (SymbolsEditor.onConstantNameChanged sampleFormat sampleTable "a" "b" StandardButton.Yes).symbolTable
        = sampleTable
    ∧ (SymbolsEditor.onConstantNameChanged sampleFormat sampleTable "a" "b"
        StandardButton.Yes).symbolTable.hasConstant "b" = false
    ∧ (SymbolsEditor.onVariableNameChanged sampleFormat sampleTable "x" "b" StandardButton.Yes).thrown
        = none
    ∧ (SymbolsEditor.onVariableNameChanged sampleFormat sampleTable "x" "b"
        StandardButton.Yes).symbolTable.getVariableDecimals.valueOf "b" = some 1 := by
  refine ⟨?_, ?_, ?_, ?_, ?_, ?_, ?_, ?_⟩ <;> decide

/-- C10. In a table in which `originalName` is a variable with value `v` and
digit count `d`, for a non-empty `name` that no variable, constant, function
or script owns, `onVariableNameChanged(originalName, name)` completes and
yields a table in which `name` is a variable with value `v` and digit count
`d`, `originalName` is no longer present, and every other symbol is unchanged. -/
theorem onVariableNameChanged_renames (nf : NumberFormat) (t : SymbolTable)
    (originalName name : String) (answer : StandardButton) (v : ArithmeticType) (d : Int)
    (hv : t.getVariables.valueOf originalName = some v)
    (hd : t.getVariableDecimals.valueOf originalName = some d)
    (hname : name ≠ "") (hfresh : t.owns name = false) :
    let r := SymbolsEditor.onVariableNameChanged nf t originalName name answer
    r.thrown = none
    ∧ r.symbolTable.getVariables.valueOf name = some v
    ∧ r.symbolTable.getVariableDecimals.valueOf name = some d
    ∧ r.symbolTable.owners name = 1
    ∧ r.symbolTable.owns originalName = false
    ∧ r.symbolTable.getVariableDecimals.valueOf originalName = none
    ∧ r.symbolTable.getConstantDecimals.valueOf originalName = none
    ∧ ∀ other, other ≠ name → other ≠ originalName →
        r.symbolTable.getVariables.valueOf other = t.getVariables.valueOf other
        ∧ r.symbolTable.getVariableDecimals.valueOf other = t.getVariableDecimals.valueOf other
        ∧ r.symbolTable.getConstants.valueOf other = t.getConstants.valueOf other
        ∧ r.symbolTable.getConstantDecimals.valueOf other = t.getConstantDecimals.valueOf other
        ∧ r.symbolTable.getFunctions.valueOf other = t.getFunctions.valueOf other
        ∧ r.symbolTable.getScripts.valueOf other = t.getScripts.valueOf other := by
  intro r
  have hf : t.hasVariable name = false ∧ t.hasConstant name = false
      ∧ t.hasFunction name = false ∧ t.hasScript name = false := by
    simpa [SymbolTable.owns, and_assoc] using hfresh
  obtain ⟨h1, h2, h3, h4⟩ := hf
  have hne : name ≠ originalName := by
    intro e
    subst e
    simp [SymbolTable.hasVariable, StdMap.hasKey, SymbolTable.getVariables] at h1 hv
    rw [hv] at h1
    cases h1
  have hr : r = ⟨(t.setVariable name v d).remove originalName, none,
      [UiEvent.symbolsChanged ((t.setVariable name v d).remove originalName)]⟩ := by
    simp [r, SymbolsEditor.onVariableNameChanged, QString.isEmpty, hname, h1, h2, h3, h4,
      StdMap.at, hv, hd]
  rw [hr]
  refine ⟨rfl, ?_, ?_, ?_, ?_, ?_, ?_, ?_⟩
  · simp [SymbolTable.getVariables, SymbolTable.remove, SymbolTable.setVariable,
      StdMap.valueOf_eraseKey_ne _ _ _ hne, StdMap.valueOf_assign_self]
  · simp [SymbolTable.getVariableDecimals, SymbolTable.remove, SymbolTable.setVariable,
      StdMap.valueOf_eraseKey_ne _ _ _ hne, StdMap.valueOf_assign_self]
  · rw [SymbolTable.owners_remove, if_neg hne, SymbolTable.owners_setVariable, if_pos rfl]
  · simp [SymbolTable.owns, SymbolTable.remove, SymbolTable.hasVariable, SymbolTable.hasConstant,
      SymbolTable.hasFunction, SymbolTable.hasScript, StdMap.hasKey_eraseKey]
  · simp [SymbolTable.getVariableDecimals, SymbolTable.remove, StdMap.valueOf_eraseKey_self]
  · simp [SymbolTable.getConstantDecimals, SymbolTable.remove, StdMap.valueOf_eraseKey_self]
  · intro other ho1 ho2
    simp [SymbolTable.getVariables, SymbolTable.getVariableDecimals, SymbolTable.getConstants,
      SymbolTable.getConstantDecimals, SymbolTable.getFunctions, SymbolTable.getScripts,
      SymbolTable.remove, SymbolTable.setVariable, StdMap.valueOf_eraseKey_ne _ _ _ ho2,
      StdMap.valueOf_eraseKey_ne _ _ _ ho1, StdMap.valueOf_assign_ne _ _ _ _ ho1]

/-- C10 at a concrete input: renaming the variable `x` (value 3, one digit) of
the sample table to the fresh name `b`. -/
theorem onVariableNameChanged_renames_witness :
    sampleTable.getVariables.valueOf "x" = some ⟨3, 0, 64⟩
    ∧ sampleTable.getVariableDecimals.valueOf "x" = some 1
    ∧ "b" ≠ ""
    ∧ sampleTable.owns "b" = false
    ∧ (SymbolsEditor.onVariableNameChanged sampleFormat sampleTable "x" "b"
        StandardButton.Yes).symbolTable.getVariables.valueOf "b" = some ⟨3, 0, 64⟩
    ∧ (SymbolsEditor.onVariableNameChanged sampleFormat sampleTable "x" "b"
        StandardButton.Yes).symbolTable.getVariableDecimals.valueOf "b" = some 1
    ∧ (SymbolsEditor.onVariableNameChanged sampleFormat sampleTable "x" "b"
        StandardButton.Yes).symbolTable.owns "x" = false :=
  have h := onVariableNameChanged_renames sampleFormat sampleTable "x" "b" StandardButton.Yes
    ⟨3, 0, 64⟩ 1 (by decide) (by decide) (by decide) (by decide)
  ⟨by decide, by decide, by decide, by decide, h.2.1, h.2.2.1, h.2.2.2.2.1⟩

/-! ## Properties of the main window -/

theorem MainWindow.catchRuntimeError_of_runtime (w : MainWindow) (title : String)
    (e : CppException) (h : e.isRuntimeError = true) :
    MainWindow.catchRuntimeError w title e
      = some { w with events := w.events ++ [UiEvent.warning title e.what] } := by
  simp [MainWindow.catchRuntimeError, h]

theorem MainWindow.catchRuntimeError_of_other (w : MainWindow) (title : String)
    (e : CppException) (h : e.isRuntimeError = false) :
    MainWindow.catchRuntimeError w title e = none := by
  simp [MainWindow.catchRuntimeError, h]

theorem StdSet.mem_insert (s : StdSet) (x y : String) :
    y ∈ StdSet.insert s x ↔ y = x ∨ y ∈ s := by
  induction s with
  | nil => simp [StdSet.insert]
  | cons z rest ih =>
    simp only [StdSet.insert]
    split
    · rename_i h
      subst h
      simp
    · split
      · simp
      · simp only [List.mem_cons, ih]
        tauto

theorem MainWindow.mem_keepAvailable_fold (addons : List String) (enabledAddons : StdSet) :
    ∀ (acc : StdSet) (x : String),
      x ∈ enabledAddons.foldl
          (fun availableAddons addon =>
            if addons.contains addon then availableAddons.insert addon else availableAddons) acc
        ↔ x ∈ acc ∨ (x ∈ enabledAddons ∧ x ∈ addons) := by
  induction enabledAddons with
  | nil => intro acc x; simp
  | cons a rest ih =>
    intro acc x
    simp only [List.foldl_cons, ih, List.mem_cons]
    by_cases ha : addons.contains a = true
    · simp only [ha, if_true, StdSet.mem_insert]
      have ha2 : a ∈ addons := by simpa using ha
      constructor
      · rintro ((h | h) | h)
        · subst h; exact Or.inr ⟨Or.inl rfl, ha2⟩
        · exact Or.inl h
        · exact Or.inr ⟨Or.inr h.1, h.2⟩
      · rintro (h | ⟨h | h, h2⟩)
        · exact Or.inl (Or.inr h)
        · exact Or.inl (Or.inl h)
        · exact Or.inr ⟨h, h2⟩
    · have ha2 : a ∉ addons := by simpa using ha
      simp only [ha, Bool.false_eq_true, if_false]
      constructor
      · rintro (h | h)
        · exact Or.inl h
        · exact Or.inr ⟨Or.inr h.1, h.2⟩
      · rintro (h | ⟨h | h, h2⟩)
        · exact Or.inl h
        · subst h; exact absurd h2 ha2
        · exact Or.inr ⟨h, h2⟩

/-- The set the constructor's loop builds is the intersection of the enabled
and the available addons. -/
theorem MainWindow.mem_keepAvailable (addons : List String) (enabledAddons : StdSet) (x : String) :
    x ∈ MainWindow.keepAvailable addons enabledAddons ↔ x ∈ enabledAddons ∧ x ∈ addons := by
  unfold MainWindow.keepAvailable
  rw [MainWindow.mem_keepAvailable_fold]
  simp

/-- C7. When the enabled-addons file is absent, when it deserializes, and when
reading or deserializing it throws a `std::runtime_error`, the set passed to
`setActiveAddons` is the intersection of the persisted enabled set (empty in
the first and the last case) and the available addons. When the serializer
throws an exception of another class, the constructor does not catch it: the
exception leaves the constructor and `setActiveAddons` is never called (the
window is as before), although the claim requires the empty set then. -/
theorem loadEnabledAddons_intersection_and_uncaught_failure :
    (∀ (env : Collaborators) (w : MainWindow) (enabledAddons : StdSet),
        env.fileExists (env.appDataDirectory ++ ADDONS_FILE) = true →
        (env.fileReadAllText (env.appDataDirectory ++ ADDONS_FILE)).bind env.deserializeSet
          = Except.ok enabledAddons →
        (MainWindow.loadEnabledAddons env w).1 = none
        ∧ ∀ x, x ∈ (MainWindow.loadEnabledAddons env w).2.activeAddons
            ↔ x ∈ enabledAddons ∧ x ∈ env.availableAddons)
    ∧ (∀ (env : Collaborators) (w : MainWindow),
        env.fileExists (env.appDataDirectory ++ ADDONS_FILE) = false →
        (MainWindow.loadEnabledAddons env w).1 = none
        ∧ (MainWindow.loadEnabledAddons env w).2.activeAddons = [])
    ∧ (∀ (env : Collaborators) (w : MainWindow) (e : CppException),
        env.fileExists (env.appDataDirectory ++ ADDONS_FILE) = true →
        (env.fileReadAllText (env.appDataDirectory ++ ADDONS_FILE)).bind env.deserializeSet
          = Except.error e →
        e.isRuntimeError = true →
        (MainWindow.loadEnabledAddons env w).1 = none
        ∧ (MainWindow.loadEnabledAddons env w).2.activeAddons = [])
    ∧ (MainWindow.loadEnabledAddons (sampleCollaborators "precision 64" "<") sampleWindow).1
        = some (CppException.exception "parse error")
    ∧ (MainWindow.loadEnabledAddons (sampleCollaborators "precision 64" "<") sampleWindow).2
        = sampleWindow := by
  refine ⟨?_, ?_, ?_, ?_, ?_⟩
  · intro env w enabledAddons hex hok
    simp only [MainWindow.loadEnabledAddons, hex, if_true, hok]
    exact ⟨trivial, fun x => MainWindow.mem_keepAvailable _ _ x⟩
  · intro env w hex
    simp only [MainWindow.loadEnabledAddons, hex]
    exact ⟨rfl, rfl⟩
  · intro env w e hex herr hrt
    simp only [MainWindow.loadEnabledAddons, hex, if_true, herr,
      MainWindow.catchRuntimeError_of_runtime _ _ _ hrt]
    exact ⟨trivial, rfl⟩
  · decide
  · decide

/-- C8. When reading or deserializing the settings file throws a
`std::runtime_error`, `loadSettings` resets the settings to the empty
settings and sets the default precision, and the default rounding mode, from
the built-in defaults. When the serializer throws an exception of another
class, `loadSettings` does not catch it: the exception leaves `loadSettings`,
the settings are not reset and the defaults are not set (the window is as
before), although the claim requires the fallback then. -/
theorem loadSettings_fallback_and_uncaught_failure :
    (∀ (env : Collaborators) (w : MainWindow) (e : CppException),
        env.fileExists (env.appConfigDirectory ++ SETTINGS_FILE) = true →
        (env.fileReadAllText (env.appConfigDirectory ++ SETTINGS_FILE)).bind env.deserializeSettings
          = Except.error e →
        e.isRuntimeError = true →
        (MainWindow.loadSettings env w).2.settings = Settings.empty
        ∧ (MainWindow.loadSettings env w).2.defaultPrec = env.constants.SETTING_DEFAULT_PRECISION
        ∧ ∀ rnd, env.deserializeRoundingMode env.constants.SETTING_DEFAULT_ROUNDING = Except.ok rnd →
            (MainWindow.loadSettings env w).1 = none
            ∧ (MainWindow.loadSettings env w).2.defaultRnd = rnd)
    ∧ (MainWindow.loadSettings (sampleCollaborators "<" "a b") sampleWindow).1
        = some (CppException.exception "parse error")
    ∧ (MainWindow.loadSettings (sampleCollaborators "<" "a b") sampleWindow).2 = sampleWindow
    ∧ sampleWindow.defaultPrec ≠ (sampleCollaborators "<" "a b").constants.SETTING_DEFAULT_PRECISION := by
  refine ⟨?_, ?_, ?_, ?_⟩
  · intro env w e hex herr hrt
    have hval : ∀ key d, Settings.empty.value key d = d := by
      intro key d
      simp [Settings.value, Settings.empty, StdMap.valueOf]
    simp only [MainWindow.loadSettings, hex, if_true, herr,
      MainWindow.catchRuntimeError_of_runtime _ _ _ hrt, hval]
    refine ⟨?_, ?_, ?_⟩
    · split <;> rfl
    · split <;> rfl
    · intro rnd hrnd
      rw [hrnd]
      exact ⟨rfl, rfl⟩
  · decide
  · decide
  · decide

/-! ## Value edits in the symbols editor -/

theorem SymbolTable.agreeAt_refl (t : SymbolTable) (k : String) : t.agreeAt t k :=
  ⟨rfl, rfl, rfl, rfl, rfl, rfl⟩

theorem SymbolTable.agreeAt_setVariable (t : SymbolTable) (n k : String) (v : ArithmeticType)
    (d : Int) (h : k ≠ n) : (t.setVariable n v d).agreeAt t k := by
  simp [SymbolTable.agreeAt, SymbolTable.getVariables, SymbolTable.getVariableDecimals,
    SymbolTable.getConstants, SymbolTable.getConstantDecimals, SymbolTable.getFunctions,
    SymbolTable.getScripts, SymbolTable.setVariable, StdMap.valueOf_eraseKey_ne _ _ _ h,
    StdMap.valueOf_assign_ne _ _ _ _ h]

theorem SymbolTable.agreeAt_setConstant (t : SymbolTable) (n k : String) (v : ArithmeticType)
    (d : Int) (h : k ≠ n) : (t.setConstant n v d).agreeAt t k := by
  simp [SymbolTable.agreeAt, SymbolTable.getVariables, SymbolTable.getVariableDecimals,
    SymbolTable.getConstants, SymbolTable.getConstantDecimals, SymbolTable.getFunctions,
    SymbolTable.getScripts, SymbolTable.setConstant, StdMap.valueOf_eraseKey_ne _ _ _ h,
    StdMap.valueOf_assign_ne _ _ _ _ h]

theorem SymbolTable.agreeAt_setFunction (t : SymbolTable) (n k : String) (f : Function)
    (h : k ≠ n) : (t.setFunction n f).agreeAt t k := by
  simp [SymbolTable.agreeAt, SymbolTable.getVariables, SymbolTable.getVariableDecimals,
    SymbolTable.getConstants, SymbolTable.getConstantDecimals, SymbolTable.getFunctions,
    SymbolTable.getScripts, SymbolTable.setFunction, StdMap.valueOf_eraseKey_ne _ _ _ h,
    StdMap.valueOf_assign_ne _ _ _ _ h]

theorem StdMap.at_of_valueOf {V : Type} (m : StdMap V) (k : String) (v : V)
    (h : m.valueOf k = some v) : m.at k = Except.ok v := by
  simp [StdMap.at, h]

theorem StdMap.exists_of_hasKey {V : Type} (m : StdMap V) (k : String)
    (h : m.hasKey k = true) : ∃ v, m.valueOf k = some v := by
  unfold StdMap.hasKey at h
  cases hv : m.valueOf k with
  | none => rw [hv] at h; cases h
  | some v => exact ⟨v, rfl⟩

theorem QString.length_le_size_aux (l : List Char) :
    ∀ n : Nat, n + l.length ≤ l.foldl (fun n c => n + (if c.val < 0x10000 then 1 else 2)) n := by
  induction l with
  | nil => intro n; simp
  | cons c rest ih =>
    intro n
    simp only [List.foldl_cons, List.length_cons]
    by_cases hc : c.val < 0x10000
    · rw [if_pos hc]
      have h := ih (n + 1)
      omega
    · rw [if_neg hc]
      have h := ih (n + 2)
      omega

/-- A text has at least as many UTF-16 code units as characters. -/
theorem QString.length_le_size (s : String) : s.length ≤ QString.size s := by
  have h := QString.length_le_size_aux s.data 0
  rw [Nat.zero_add] at h
  exact h

theorem significantDigits_le_size (s : String) : significantDigits s ≤ QString.size s := by
  have h1 : significantDigits s ≤ s.length := by
    unfold significantDigits
    calc ((s.data.filter Char.isDigit).dropWhile (fun c => c == '0')).length
        ≤ (s.data.filter Char.isDigit).length :=
          List.Sublist.length_le (List.dropWhile_sublist _)
      _ ≤ s.data.length := List.length_filter_le _ _
      _ = s.length := rfl
  exact le_trans h1 (QString.length_le_size s)

theorem SymbolsEditor.onVariableValueChanged_parsed (nf : NumberFormat) (t : SymbolTable)
    (name value : String) (orig v : ArithmeticType)
    (ho : t.getVariables.valueOf name = some orig)
    (hp : nf.fromDecimal value (nf.digits2bits (QString.size value)) mpfr_rnd_t.MPFR_RNDN
      = Except.ok v) :
    SymbolsEditor.onVariableValueChanged nf t name value
      = ⟨t.setVariable name v (nf.getDecimals value), none,
          [UiEvent.symbolsChanged (t.setVariable name v (nf.getDecimals value))]⟩ := by
  simp only [SymbolsEditor.onVariableValueChanged, StdMap.at_of_valueOf _ _ _ ho, hp]

theorem SymbolsEditor.onConstantValueChanged_parsed (nf : NumberFormat) (t : SymbolTable)
    (name value : String) (orig v : ArithmeticType)
    (ho : t.getConstants.valueOf name = some orig)
    (hp : nf.fromDecimal value (nf.digits2bits (QString.size value)) mpfr_rnd_t.MPFR_RNDN
      = Except.ok v) :
    SymbolsEditor.onConstantValueChanged nf t name value
      = ⟨t.setConstant name v (nf.getDecimals value), none,
          [UiEvent.symbolsChanged (t.setConstant name v (nf.getDecimals value))]⟩ := by
  simp only [SymbolsEditor.onConstantValueChanged, StdMap.at_of_valueOf _ _ _ ho, hp]

/-- C11. For every existing variable (respectively constant) and every value
text `s` that parses as a decimal numeral, that is for which
`fromDecimal(s, digits2bits(s.size()), MPFR_RNDN)` returns a value `v`,
`onVariableValueChanged` (respectively `onConstantValueChanged`) completes and
stores under that name the value `v` together with the digit count
`getDecimals(s)`. -/
theorem onValueChanged_stores_parsed_value (nf : NumberFormat) (t : SymbolTable)
    (name s : String) (v : ArithmeticType)
    (hparse : nf.fromDecimal s (nf.digits2bits (QString.size s)) mpfr_rnd_t.MPFR_RNDN
      = Except.ok v) :
    (t.hasVariable name = true →
      (SymbolsEditor.onVariableValueChanged nf t name s).thrown = none
      ∧ (SymbolsEditor.onVariableValueChanged nf t name s).symbolTable.getVariables.valueOf name
          = some v
      ∧ (SymbolsEditor.onVariableValueChanged nf t name s).symbolTable.getVariableDecimals.valueOf name
          = some (nf.getDecimals s))
    ∧ (t.hasConstant name = true →
      (SymbolsEditor.onConstantValueChanged nf t name s).thrown = none
      ∧ (SymbolsEditor.onConstantValueChanged nf t name s).symbolTable.getConstants.valueOf name
          = some v
      ∧ (SymbolsEditor.onConstantValueChanged nf t name s).symbolTable.getConstantDecimals.valueOf name
          = some (nf.getDecimals s)) := by
  constructor
  · intro h
    obtain ⟨orig, ho⟩ := StdMap.exists_of_hasKey _ _ h
    rw [SymbolsEditor.onVariableValueChanged_parsed nf t name s orig v ho hparse]
    refine ⟨rfl, ?_, ?_⟩
    · simp [SymbolTable.getVariables, SymbolTable.setVariable, StdMap.valueOf_assign_self]
    · simp [SymbolTable.getVariableDecimals, SymbolTable.setVariable, StdMap.valueOf_assign_self]
  · intro h
    obtain ⟨orig, ho⟩ := StdMap.exists_of_hasKey _ _ h
    rw [SymbolsEditor.onConstantValueChanged_parsed nf t name s orig v ho hparse]
    refine ⟨rfl, ?_, ?_⟩
    · simp [SymbolTable.getConstants, SymbolTable.setConstant, StdMap.valueOf_assign_self]
    · simp [SymbolTable.getConstantDecimals, SymbolTable.setConstant, StdMap.valueOf_assign_self]

/-- C11 at a concrete input: the text `1.5` for the variable `x` and for the
constant `a` of the sample table. -/
theorem onValueChanged_stores_parsed_value_witness :
    parsingFormat.fromDecimal "1.5" (parsingFormat.digits2bits (QString.size "1.5"))
        mpfr_rnd_t.MPFR_RNDN = Except.ok ⟨3, -1, 12⟩
    ∧ (SymbolsEditor.onVariableValueChanged parsingFormat sampleTable "x" "1.5").symbolTable.getVariables.valueOf "x"
        = some ⟨3, -1, 12⟩
    ∧ (SymbolsEditor.onVariableValueChanged parsingFormat sampleTable "x"
        "1.5").symbolTable.getVariableDecimals.valueOf "x" = some 1
    ∧ (SymbolsEditor.onConstantValueChanged parsingFormat sampleTable "a"
        "1.5").symbolTable.getConstantDecimals.valueOf "a" = some 1 :=
  have h := onValueChanged_stores_parsed_value parsingFormat sampleTable "x" "1.5" ⟨3, -1, 12⟩
    rfl
  have h2 := onValueChanged_stores_parsed_value parsingFormat sampleTable "a" "1.5" ⟨3, -1, 12⟩
    rfl
  ⟨rfl, (h.1 (by decide)).2.1, (h.1 (by decide)).2.2, (h2.2 (by decide)).2.2⟩

theorem SymbolsEditor.onVariableValueChanged_failed (nf : NumberFormat) (t : SymbolTable)
    (name value : String) (orig : ArithmeticType) (e : CppException)
    (ho : t.getVariables.valueOf name = some orig)
    (hf : nf.fromDecimal value (nf.digits2bits (QString.size value)) mpfr_rnd_t.MPFR_RNDN
      = Except.error e) :
    SymbolsEditor.onVariableValueChanged nf t name value
      = match t.getVariableDecimals.at name with
        | .error e2 => ⟨t, some e2, []⟩
        | .ok kept =>
          ⟨t.setVariable name orig kept, none,
            [UiEvent.warning "Failed to convert value" "Failed to parse value as decimal.",
              UiEvent.symbolsChanged (t.setVariable name orig kept)]⟩ := by
  simp only [SymbolsEditor.onVariableValueChanged, StdMap.at_of_valueOf _ _ _ ho, hf]

theorem SymbolsEditor.onConstantValueChanged_failed (nf : NumberFormat) (t : SymbolTable)
    (name value : String) (orig : ArithmeticType) (e : CppException)
    (ho : t.getConstants.valueOf name = some orig)
    (hf : nf.fromDecimal value (nf.digits2bits (QString.size value)) mpfr_rnd_t.MPFR_RNDN
      = Except.error e) :
    SymbolsEditor.onConstantValueChanged nf t name value
      = match t.getConstantDecimals.at name with
        | .error e2 => ⟨t, some e2, []⟩
        | .ok kept =>
          ⟨t.setConstant name orig kept, none,
            [UiEvent.warning "Failed to convert value" "Failed to parse value as decimal.",
              UiEvent.symbolsChanged (t.setConstant name orig kept)]⟩ := by
  simp only [SymbolsEditor.onConstantValueChanged, StdMap.at_of_valueOf _ _ _ ho, hf]

/-- C17. For every existing variable (respectively constant) and every value
text that does not parse as a decimal numeral (`fromDecimal` throws),
`onVariableValueChanged` (respectively `onConstantValueChanged`) leaves the
value and the stored digit count of that name, and the symbol under every
other name, exactly as they were before the edit. -/
theorem onValueChanged_keeps_table_on_parse_failure (nf : NumberFormat) (t : SymbolTable)
    (name value : String) (e : CppException)
    (hfail : nf.fromDecimal value (nf.digits2bits (QString.size value)) mpfr_rnd_t.MPFR_RNDN
      = Except.error e) :
    (t.hasVariable name = true →
      (SymbolsEditor.onVariableValueChanged nf t name value).symbolTable.getVariables.valueOf name
          = t.getVariables.valueOf name
      ∧ (SymbolsEditor.onVariableValueChanged nf t name value).symbolTable.getVariableDecimals.valueOf
          name = t.getVariableDecimals.valueOf name
      ∧ ∀ other, other ≠ name →
          (SymbolsEditor.onVariableValueChanged nf t name value).symbolTable.agreeAt t other)
    ∧ (t.hasConstant name = true →
      (SymbolsEditor.onConstantValueChanged nf t name value).symbolTable.getConstants.valueOf name
          = t.getConstants.valueOf name
      ∧ (SymbolsEditor.onConstantValueChanged nf t name value).symbolTable.getConstantDecimals.valueOf
          name = t.getConstantDecimals.valueOf name
      ∧ ∀ other, other ≠ name →
          (SymbolsEditor.onConstantValueChanged nf t name value).symbolTable.agreeAt t other) := by
  constructor
  · intro h
    obtain ⟨orig, ho⟩ := StdMap.exists_of_hasKey _ _ h
    rw [SymbolsEditor.onVariableValueChanged_failed nf t name value orig e ho hfail]
    have ho2 : t.getVariables.valueOf name = some orig := ho
    cases hd : t.getVariableDecimals.valueOf name with
    | none =>
      have hat : t.getVariableDecimals.at name = Except.error (CppException.out_of_range "map::at") := by
        simp [StdMap.at, hd]
      rw [hat]
      exact ⟨rfl, hd, fun other _ => SymbolTable.agreeAt_refl t other⟩
    | some d =>
      have hat : t.getVariableDecimals.at name = Except.ok d := by
        simp [StdMap.at, hd]
      rw [hat]
      refine ⟨?_, ?_, fun other ho3 => SymbolTable.agreeAt_setVariable t name other orig d ho3⟩
      · rw [ho2]
        simp [SymbolTable.getVariables, SymbolTable.setVariable, StdMap.valueOf_assign_self]
      · simp [SymbolTable.getVariableDecimals, SymbolTable.setVariable,
          StdMap.valueOf_assign_self]
  · intro h
    obtain ⟨orig, ho⟩ := StdMap.exists_of_hasKey _ _ h
    rw [SymbolsEditor.onConstantValueChanged_failed nf t name value orig e ho hfail]
    have ho2 : t.getConstants.valueOf name = some orig := ho
    cases hd : t.getConstantDecimals.valueOf name with
    | none =>
      have hat : t.getConstantDecimals.at name = Except.error (CppException.out_of_range "map::at") := by
        simp [StdMap.at, hd]
      rw [hat]
      exact ⟨rfl, hd, fun other _ => SymbolTable.agreeAt_refl t other⟩
    | some d =>
      have hat : t.getConstantDecimals.at name = Except.ok d := by
        simp [StdMap.at, hd]
      rw [hat]
      refine ⟨?_, ?_, fun other ho3 => SymbolTable.agreeAt_setConstant t name other orig d ho3⟩
      · rw [ho2]
        simp [SymbolTable.getConstants, SymbolTable.setConstant, StdMap.valueOf_assign_self]
      · simp [SymbolTable.getConstantDecimals, SymbolTable.setConstant,
          StdMap.valueOf_assign_self]

/-- C17 at a concrete input: the text `abc`, which the sample formatter rejects,
for the variable `x` of the sample table. -/
theorem onValueChanged_keeps_table_on_parse_failure_witness :
    sampleFormat.fromDecimal "abc" (sampleFormat.digits2bits (QString.size "abc"))
        mpfr_rnd_t.MPFR_RNDN = Except.error (CppException.runtime_error "not a decimal numeral")
    ∧ sampleTable.hasVariable "x" = true
    ∧ (SymbolsEditor.onVariableValueChanged sampleFormat sampleTable "x" "abc").symbolTable.getVariables.valueOf
        "x" = sampleTable.getVariables.valueOf "x"
    ∧ (SymbolsEditor.onVariableValueChanged sampleFormat sampleTable "x"
        "abc").symbolTable.getVariableDecimals.valueOf "x"
        = sampleTable.getVariableDecimals.valueOf "x" :=
  have h := onValueChanged_keeps_table_on_parse_failure sampleFormat sampleTable "x" "abc"
    (CppException.runtime_error "not a decimal numeral") rfl
  ⟨rfl, by decide, (h.1 (by decide)).1, (h.1 (by decide)).2.1⟩

theorem SymbolTable.fresh_of_owns (t : SymbolTable) (name : String) (h : t.owns name = false) :
    t.hasVariable name = false ∧ t.hasConstant name = false
      ∧ t.hasFunction name = false ∧ t.hasScript name = false := by
  simpa [SymbolTable.owns, and_assoc] using h

theorem SymbolsEditor.onVariableAdded_fresh (nf : NumberFormat) (t : SymbolTable)
    (name value : String) (hname : name ≠ "") (hfresh : t.owns name = false) :
    (SymbolsEditor.onVariableAdded nf t name value).symbolTable
      = t.setVariable name (SymbolsEditor.convertAdded nf value).1
          (SymbolsEditor.convertAdded nf value).2.1 := by
  obtain ⟨h1, h2, h3, h4⟩ := SymbolTable.fresh_of_owns t name hfresh
  simp [SymbolsEditor.onVariableAdded, QString.isEmpty, hname, h1, h2, h3, h4]

theorem SymbolsEditor.onConstantAdded_fresh (nf : NumberFormat) (t : SymbolTable)
    (name value : String) (hname : name ≠ "") (hfresh : t.owns name = false) :
    (SymbolsEditor.onConstantAdded nf t name value).symbolTable
      = t.setConstant name (SymbolsEditor.convertAdded nf value).1
          (SymbolsEditor.convertAdded nf value).2.1 := by
  obtain ⟨h1, h2, h3, h4⟩ := SymbolTable.fresh_of_owns t name hfresh
  simp [SymbolsEditor.onConstantAdded, QString.isEmpty, hname, h1, h2, h3, h4]

theorem SymbolsEditor.convertAdded_failed (nf : NumberFormat) (value : String) (e : CppException)
    (hv : value ≠ "")
    (hf : nf.fromDecimal value (nf.digits2bits (QString.size value)) mpfr_rnd_t.MPFR_RNDN
      = Except.error e) :
    (SymbolsEditor.convertAdded nf value).1 = ArithmeticType.ofInt 0 nf.defaultPrecision
      ∧ (SymbolsEditor.convertAdded nf value).2.1 = 0 := by
  simp [SymbolsEditor.convertAdded, QString.isEmpty, hv, hf]

theorem SymbolsEditor.convertAdded_empty (nf : NumberFormat) :
    (SymbolsEditor.convertAdded nf "").1 = ArithmeticType.ofInt 0 nf.defaultPrecision
      ∧ (SymbolsEditor.convertAdded nf "").2.1 = nf.getDecimals "" := by
  simp [SymbolsEditor.convertAdded, QString.isEmpty]

/-- C19. For every fresh non-empty name, `onVariableAdded` (respectively
`onConstantAdded`) with a non-empty value text that does not parse as a
decimal numeral still adds the name, with value 0 and digit count 0; with an
empty value text it adds the name with value 0 and the digit count
`getDecimals` gives for the empty string. -/
theorem onAdded_with_unparsable_or_empty_value (nf : NumberFormat) (t : SymbolTable)
    (name : String) (hname : name ≠ "") (hfresh : t.owns name = false) :
    (∀ value e, value ≠ "" →
      nf.fromDecimal value (nf.digits2bits (QString.size value)) mpfr_rnd_t.MPFR_RNDN
        = Except.error e →
      (SymbolsEditor.onVariableAdded nf t name value).symbolTable.getVariables.valueOf name
          = some (ArithmeticType.ofInt 0 nf.defaultPrecision)
      ∧ (SymbolsEditor.onVariableAdded nf t name value).symbolTable.getVariableDecimals.valueOf name
          = some 0
      ∧ (SymbolsEditor.onConstantAdded nf t name value).symbolTable.getConstants.valueOf name
          = some (ArithmeticType.ofInt 0 nf.defaultPrecision)
      ∧ (SymbolsEditor.onConstantAdded nf t name value).symbolTable.getConstantDecimals.valueOf name
          = some 0)
    ∧ ((SymbolsEditor.onVariableAdded nf t name "").symbolTable.getVariables.valueOf name
          = some (ArithmeticType.ofInt 0 nf.defaultPrecision)
      ∧ (SymbolsEditor.onVariableAdded nf t name "").symbolTable.getVariableDecimals.valueOf name
          = some (nf.getDecimals "")
      ∧ (SymbolsEditor.onConstantAdded nf t name "").symbolTable.getConstants.valueOf name
          = some (ArithmeticType.ofInt 0 nf.defaultPrecision)
      ∧ (SymbolsEditor.onConstantAdded nf t name "").symbolTable.getConstantDecimals.valueOf name
          = some (nf.getDecimals "")) := by
  constructor
  · intro value e hv hf
    obtain ⟨c1, c2⟩ := SymbolsEditor.convertAdded_failed nf value e hv hf
    rw [SymbolsEditor.onVariableAdded_fresh nf t name value hname hfresh,
      SymbolsEditor.onConstantAdded_fresh nf t name value hname hfresh, c1, c2]
    simp [SymbolTable.getVariables, SymbolTable.getVariableDecimals, SymbolTable.getConstants,
      SymbolTable.getConstantDecimals, SymbolTable.setVariable, SymbolTable.setConstant,
      StdMap.valueOf_assign_self]
  · obtain ⟨c1, c2⟩ := SymbolsEditor.convertAdded_empty nf
    rw [SymbolsEditor.onVariableAdded_fresh nf t name "" hname hfresh,
      SymbolsEditor.onConstantAdded_fresh nf t name "" hname hfresh, c1, c2]
    simp [SymbolTable.getVariables, SymbolTable.getVariableDecimals, SymbolTable.getConstants,
      SymbolTable.getConstantDecimals, SymbolTable.setVariable, SymbolTable.setConstant,
      StdMap.valueOf_assign_self]

/-- C19 at a concrete input: the fresh name `c`, the text `abc` that the sample
formatter rejects, and the empty text (for which it counts two decimals). -/
theorem onAdded_with_unparsable_or_empty_value_witness :
    "c" ≠ "" ∧ sampleTable.owns "c" = false
    ∧ (SymbolsEditor.onVariableAdded sampleFormat sampleTable "c" "abc").symbolTable.getVariableDecimals.valueOf
        "c" = some 0
    ∧ (SymbolsEditor.onVariableAdded sampleFormat sampleTable "c" "").symbolTable.getVariableDecimals.valueOf
        "c" = some 2 :=
  have h := onAdded_with_unparsable_or_empty_value sampleFormat sampleTable "c" (by decide)
    (by decide)
  ⟨by decide, by decide,
    (h.1 "abc" (CppException.runtime_error "not a decimal numeral") (by decide) rfl).2.1,
    h.2.2.1⟩

theorem SymbolsEditor.convertAdded_parsed (nf : NumberFormat) (value : String)
    (v : ArithmeticType) (hv : value ≠ "")
    (hp : nf.fromDecimal value (nf.digits2bits (QString.size value)) mpfr_rnd_t.MPFR_RNDN
      = Except.ok v) :
    (SymbolsEditor.convertAdded nf value).1 = v
      ∧ (SymbolsEditor.convertAdded nf value).2.1 = nf.getDecimals value := by
  simp [SymbolsEditor.convertAdded, QString.isEmpty, hv, hp]

/-- The four slots that parse a value text give the same outcome with any
formatter whose `fromDecimal` agrees with the given one at the text, the bit
precision `digits2bits(value.size())` and round-to-nearest. -/
theorem SymbolsEditor.slots_agree (nf nf2 : NumberFormat) (t : SymbolTable)
    (name value : String)
    (hagree : nf.AgreesAt nf2 value (nf.digits2bits (QString.size value)) mpfr_rnd_t.MPFR_RNDN) :
    SymbolsEditor.onVariableAdded nf2 t name value = SymbolsEditor.onVariableAdded nf t name value
    ∧ SymbolsEditor.onVariableValueChanged nf2 t name value
        = SymbolsEditor.onVariableValueChanged nf t name value
    ∧ SymbolsEditor.onConstantAdded nf2 t name value = SymbolsEditor.onConstantAdded nf t name value
    ∧ SymbolsEditor.onConstantValueChanged nf2 t name value
        = SymbolsEditor.onConstantValueChanged nf t name value := by
  obtain ⟨h1, _, h3, _, h5, h6⟩ := hagree
  have hconv : SymbolsEditor.convertAdded nf2 value = SymbolsEditor.convertAdded nf value := by
    simp only [SymbolsEditor.convertAdded, h1, h3, h5, h6]
  refine ⟨?_, ?_, ?_, ?_⟩
  · simp only [SymbolsEditor.onVariableAdded, hconv]
  · simp only [SymbolsEditor.onVariableValueChanged, h1, h3, h6]
  · simp only [SymbolsEditor.onConstantAdded, hconv]
  · simp only [SymbolsEditor.onConstantValueChanged, h1, h3, h6]

/-- C12. The bit precision the symbols editor hands to `fromDecimal` for a value
text is `digits2bits(n)` with `n` the number of characters (`value.size()`) of
the text. The four slots that parse a value text call `fromDecimal` with
nothing else: they give the same outcome with any formatter whose `fromDecimal`
agrees with the given one at the text, that precision and round-to-nearest,
whatever it does for other arguments. They do make that call and use its
result: the value it returns is the value stored afterwards under the name, of
an existing variable or constant for the value-changed slots and of a fresh
non-empty name with a non-empty text for the added slots. The text has at
least as many characters as significant digits, so with a monotone
`digits2bits` the precision handed is never smaller than `digits2bits` of the
number of significant digits: what `fromDecimal` does at a smaller precision
than that has no influence on the slots. -/
theorem fromDecimal_precision_over_provisioned (nf : NumberFormat) (t : SymbolTable)
    (name value : String) (hmono : Monotone nf.digits2bits) :
    (∀ nf2 : NumberFormat,
      nf.AgreesAt nf2 value (nf.digits2bits (QString.size value)) mpfr_rnd_t.MPFR_RNDN →
      SymbolsEditor.onVariableAdded nf2 t name value = SymbolsEditor.onVariableAdded nf t name value
      ∧ SymbolsEditor.onVariableValueChanged nf2 t name value
          = SymbolsEditor.onVariableValueChanged nf t name value
      ∧ SymbolsEditor.onConstantAdded nf2 t name value
          = SymbolsEditor.onConstantAdded nf t name value
      ∧ SymbolsEditor.onConstantValueChanged nf2 t name value
          = SymbolsEditor.onConstantValueChanged nf t name value)
    ∧ (∀ v, nf.fromDecimal value (nf.digits2bits (QString.size value)) mpfr_rnd_t.MPFR_RNDN
          = Except.ok v →
      (t.hasVariable name = true →
        (SymbolsEditor.onVariableValueChanged nf t name value).symbolTable.getVariables.valueOf name
          = some v)
      ∧ (t.hasConstant name = true →
        (SymbolsEditor.onConstantValueChanged nf t name value).symbolTable.getConstants.valueOf name
          = some v)
      ∧ (name ≠ "" → t.owns name = false → value ≠ "" →
        (SymbolsEditor.onVariableAdded nf t name value).symbolTable.getVariables.valueOf name
          = some v
        ∧ (SymbolsEditor.onConstantAdded nf t name value).symbolTable.getConstants.valueOf name
          = some v))
    ∧ significantDigits value ≤ QString.size value
    ∧ nf.digits2bits (significantDigits value) ≤ nf.digits2bits (QString.size value)
    ∧ (∀ nf2 : NumberFormat,
      (∀ bits, nf.digits2bits (significantDigits value) ≤ bits →
        nf.AgreesAt nf2 value bits mpfr_rnd_t.MPFR_RNDN) →
      SymbolsEditor.onVariableAdded nf2 t name value = SymbolsEditor.onVariableAdded nf t name value
      ∧ SymbolsEditor.onVariableValueChanged nf2 t name value
          = SymbolsEditor.onVariableValueChanged nf t name value
      ∧ SymbolsEditor.onConstantAdded nf2 t name value
          = SymbolsEditor.onConstantAdded nf t name value
      ∧ SymbolsEditor.onConstantValueChanged nf2 t name value
          = SymbolsEditor.onConstantValueChanged nf t name value) := by
  refine ⟨fun nf2 hagree => SymbolsEditor.slots_agree nf nf2 t name value hagree, ?_,
    significantDigits_le_size value, hmono (significantDigits_le_size value),
    fun nf2 hagree => SymbolsEditor.slots_agree nf nf2 t name value
      (hagree _ (hmono (significantDigits_le_size value)))⟩
  intro v hparse
  refine ⟨?_, ?_, ?_⟩
  · intro h
    obtain ⟨orig, ho⟩ := StdMap.exists_of_hasKey _ _ h
    rw [SymbolsEditor.onVariableValueChanged_parsed nf t name value orig v ho hparse]
    simp [SymbolTable.getVariables, SymbolTable.setVariable, StdMap.valueOf_assign_self]
  · intro h
    obtain ⟨orig, ho⟩ := StdMap.exists_of_hasKey _ _ h
    rw [SymbolsEditor.onConstantValueChanged_parsed nf t name value orig v ho hparse]
    simp [SymbolTable.getConstants, SymbolTable.setConstant, StdMap.valueOf_assign_self]
  · intro hname hfresh hv
    obtain ⟨c1, _⟩ := SymbolsEditor.convertAdded_parsed nf value v hv hparse
    rw [SymbolsEditor.onVariableAdded_fresh nf t name value hname hfresh,
      SymbolsEditor.onConstantAdded_fresh nf t name value hname hfresh, c1]
    simp [SymbolTable.getVariables, SymbolTable.getConstants, SymbolTable.setVariable,
      SymbolTable.setConstant, StdMap.valueOf_assign_self]

/-- C12 at a concrete input: the text `1.5` has three characters and two
significant digits, so twelve bits are handed where eight are needed. The
formatter `parsingFormat` returns a value that carries the bit precision it was
handed, and the value stored for the variable `x` carries twelve bits; the
formatter `probingFormat`, which rejects every precision but twelve, changes
nothing. -/
theorem fromDecimal_precision_over_provisioned_witness :
    Monotone parsingFormat.digits2bits
    ∧ parsingFormat.AgreesAt probingFormat "1.5" (parsingFormat.digits2bits (QString.size "1.5"))
        mpfr_rnd_t.MPFR_RNDN
    ∧ SymbolsEditor.onVariableValueChanged probingFormat sampleTable "x" "1.5"
        = SymbolsEditor.onVariableValueChanged parsingFormat sampleTable "x" "1.5"
    ∧ (SymbolsEditor.onVariableValueChanged parsingFormat sampleTable "x"
        "1.5").symbolTable.getVariables.valueOf "x" = some ⟨3, -1, 12⟩
    ∧ (SymbolsEditor.onVariableAdded parsingFormat sampleTable "c"
        "1.5").symbolTable.getVariables.valueOf "c" = some ⟨3, -1, 12⟩
    ∧ parsingFormat.digits2bits (significantDigits "1.5") = 8
    ∧ parsingFormat.digits2bits (significantDigits "1.5")
        ≤ parsingFormat.digits2bits (QString.size "1.5") :=
  have ha : parsingFormat.AgreesAt probingFormat "1.5"
      (parsingFormat.digits2bits (QString.size "1.5")) mpfr_rnd_t.MPFR_RNDN :=
    ⟨rfl, rfl, rfl, rfl, rfl, rfl⟩
  have hm : Monotone parsingFormat.digits2bits := fun _ _ hab => Nat.mul_le_mul_left 4 hab
  have h := fromDecimal_precision_over_provisioned parsingFormat sampleTable "x" "1.5" hm
  have hc := fromDecimal_precision_over_provisioned parsingFormat sampleTable "c" "1.5" hm
  ⟨hm, ha, (h.1 probingFormat ha).2.1, (h.2.1 ⟨3, -1, 12⟩ rfl).1 (by decide),
    ((hc.2.1 ⟨3, -1, 12⟩ rfl).2.2 (by decide) (by decide) (by decide)).1, by decide,
    h.2.2.2.1⟩
/-! ## Function edits and deletions in the symbols editor -/

theorem SymbolsEditor.onFunctionBodyChanged_existing (t : SymbolTable) (name body : String)
    (f : Function) (hf : t.getFunctions.valueOf name = some f) :
    SymbolsEditor.onFunctionBodyChanged t name body
      = ⟨t.setFunction name { f with expression := body }, none,
          [UiEvent.symbolsChanged (t.setFunction name { f with expression := body })]⟩ := by
  simp only [SymbolsEditor.onFunctionBodyChanged, StdMap.at_of_valueOf _ _ _ hf]

theorem SymbolsEditor.onFunctionArgsChanged_existing (t : SymbolTable) (name : String)
    (args : List String) (f : Function) (hf : t.getFunctions.valueOf name = some f) :
    SymbolsEditor.onFunctionArgsChanged t name args
      = ⟨t.setFunction name { f with argumentNames := args }, none,
          [UiEvent.symbolsChanged (t.setFunction name { f with argumentNames := args })]⟩ := by
  simp only [SymbolsEditor.onFunctionArgsChanged, StdMap.at_of_valueOf _ _ _ hf]

theorem SymbolTable.getFunctions_setFunction_self (t : SymbolTable) (n : String) (f : Function) :
    (t.setFunction n f).getFunctions.valueOf n = some f := by
  simp [SymbolTable.getFunctions, SymbolTable.setFunction, StdMap.valueOf_assign_self]

/-- In a table with unique names a function's name is no variable, constant or
script, before and after `setFunction`. -/
theorem SymbolTable.others_setFunction_self (t : SymbolTable) (n : String) (f g : Function)
    (hu : t.Unique) (hf : t.getFunctions.valueOf n = some f) :
    (t.setFunction n g).hasVariable n = t.hasVariable n
      ∧ (t.setFunction n g).hasConstant n = t.hasConstant n
      ∧ (t.setFunction n g).hasScript n = t.hasScript n := by
  have h1 := hu n
  have h2 : t.hasFunction n = true := by
    simp [SymbolTable.hasFunction, StdMap.hasKey, SymbolTable.getFunctions] at hf ⊢
    rw [hf]
    rfl
  simp only [SymbolTable.owners, h2] at h1
  have hv : t.hasVariable n = false := by
    cases h : t.hasVariable n with
    | false => rfl
    | true =>
      rw [h] at h1
      simp only [Bool.toNat_true] at h1
      exfalso
      omega
  have hc : t.hasConstant n = false := by
    cases h : t.hasConstant n with
    | false => rfl
    | true =>
      rw [h] at h1
      simp only [Bool.toNat_true] at h1
      exfalso
      omega
  have hs : t.hasScript n = false := by
    cases h : t.hasScript n with
    | false => rfl
    | true =>
      rw [h] at h1
      simp only [Bool.toNat_true] at h1
      exfalso
      omega
  rw [hv, hc, hs]
  simp [SymbolTable.setFunction, SymbolTable.hasVariable, SymbolTable.hasConstant,
    SymbolTable.hasScript, StdMap.hasKey_eraseKey]

/-- C20. In a table in which `name` is the function `f`,
`onFunctionBodyChanged(name, body)` changes only the expression text of that
function: afterwards the function under `name` is `f` with the expression
`body` (same argument-name list), and the symbol under every other name is
unchanged; symmetrically `onFunctionArgsChanged(name, args)` changes only the
argument-name list and leaves the expression unchanged. In a table with
unique names, `name` is no variable, constant or script before or after. -/
theorem onFunctionChanged_frame (t : SymbolTable) (name : String) (f : Function)
    (hf : t.getFunctions.valueOf name = some f) :
    (∀ body,
      (SymbolsEditor.onFunctionBodyChanged t name body).thrown = none
      ∧ (SymbolsEditor.onFunctionBodyChanged t name body).symbolTable.getFunctions.valueOf name
          = some ⟨f.name, body, f.argumentNames⟩
      ∧ (∀ other, other ≠ name →
          (SymbolsEditor.onFunctionBodyChanged t name body).symbolTable.agreeAt t other)
      ∧ (t.Unique →
          (SymbolsEditor.onFunctionBodyChanged t name body).symbolTable.hasVariable name
              = t.hasVariable name
          ∧ (SymbolsEditor.onFunctionBodyChanged t name body).symbolTable.hasConstant name
              = t.hasConstant name
          ∧ (SymbolsEditor.onFunctionBodyChanged t name body).symbolTable.hasScript name
              = t.hasScript name))
    ∧ (∀ args,
      (SymbolsEditor.onFunctionArgsChanged t name args).thrown = none
      ∧ (SymbolsEditor.onFunctionArgsChanged t name args).symbolTable.getFunctions.valueOf name
          = some ⟨f.name, f.expression, args⟩
      ∧ (∀ other, other ≠ name →
          (SymbolsEditor.onFunctionArgsChanged t name args).symbolTable.agreeAt t other)
      ∧ (t.Unique →
          (SymbolsEditor.onFunctionArgsChanged t name args).symbolTable.hasVariable name
              = t.hasVariable name
          ∧ (SymbolsEditor.onFunctionArgsChanged t name args).symbolTable.hasConstant name
              = t.hasConstant name
          ∧ (SymbolsEditor.onFunctionArgsChanged t name args).symbolTable.hasScript name
              = t.hasScript name)) := by
  constructor
  · intro body
    rw [SymbolsEditor.onFunctionBodyChanged_existing t name body f hf]
    exact ⟨rfl, SymbolTable.getFunctions_setFunction_self _ _ _,
      fun other ho => SymbolTable.agreeAt_setFunction t name other _ ho,
      fun hu => SymbolTable.others_setFunction_self t name f _ hu hf⟩
  · intro args
    rw [SymbolsEditor.onFunctionArgsChanged_existing t name args f hf]
    exact ⟨rfl, SymbolTable.getFunctions_setFunction_self _ _ _,
      fun other ho => SymbolTable.agreeAt_setFunction t name other _ ho,
      fun hu => SymbolTable.others_setFunction_self t name f _ hu hf⟩

/-- C20 at a concrete input: the function `f(a, b) = a + b` of the sample table. -/
theorem onFunctionChanged_frame_witness :
    sampleFunctionTable.getFunctions.valueOf "f" = some ⟨"f", "a + b", ["a", "b"]⟩
    ∧ (SymbolsEditor.onFunctionBodyChanged sampleFunctionTable "f" "a * b").symbolTable.getFunctions.valueOf
        "f" = some ⟨"f", "a * b", ["a", "b"]⟩
    ∧ (SymbolsEditor.onFunctionArgsChanged sampleFunctionTable "f" ["u"]).symbolTable.getFunctions.valueOf
        "f" = some ⟨"f", "a + b", ["u"]⟩
    ∧ (SymbolsEditor.onFunctionBodyChanged sampleFunctionTable "f" "a * b").symbolTable.agreeAt
        sampleFunctionTable "x" :=
  have h := onFunctionChanged_frame sampleFunctionTable "f" ⟨"f", "a + b", ["a", "b"]⟩ (by decide)
  ⟨by decide, (h.1 "a * b").2.1, (h.2 ["u"]).2.1, (h.1 "a * b").2.2.1 "x" (by decide)⟩

/-- C13, as stated, fails: `onFunctionArgsChanged` stores the argument list
`a, a` for the function `f` as it is, so the stored function has an argument
name that occurs twice. -/
theorem onFunctionArgsChanged_stores_duplicate_names :
    (SymbolsEditor.onFunctionArgsChanged sampleFunctionTable "f" ["a", "a"]).symbolTable.getFunctions.valueOf
        "f" = some ⟨"f", "a + b", ["a", "a"]⟩
    ∧ ¬ (["a", "a"] : List String).Nodup := by
  constructor <;> decide

/-- C13, amended. For every table, every existing function name and every
argument list passed to `onFunctionArgsChanged`, the function stored under
that name afterwards has exactly the argument list passed, in the order
passed; its argument names are pairwise distinct if and only if those of the
list passed are. -/
theorem onFunctionArgsChanged_stores_args (t : SymbolTable) (name : String) (args : List String)
    (hf : t.hasFunction name = true) :
    ∃ g, (SymbolsEditor.onFunctionArgsChanged t name args).symbolTable.getFunctions.valueOf name
        = some g
      ∧ g.argumentNames = args
      ∧ (g.argumentNames.Nodup ↔ args.Nodup) := by
  obtain ⟨f, hv⟩ := StdMap.exists_of_hasKey _ _ hf
  rw [SymbolsEditor.onFunctionArgsChanged_existing t name args f hv]
  exact ⟨_, SymbolTable.getFunctions_setFunction_self _ _ _, rfl, Iff.rfl⟩

/-- C13, amended, at a concrete input: the argument list `u, v` for the
function `f` of the sample table. -/
theorem onFunctionArgsChanged_stores_args_witness :
    sampleFunctionTable.hasFunction "f" = true
    ∧ ∃ g, (SymbolsEditor.onFunctionArgsChanged sampleFunctionTable "f"
          ["u", "v"]).symbolTable.getFunctions.valueOf "f" = some g
        ∧ g.argumentNames = ["u", "v"]
        ∧ (g.argumentNames.Nodup ↔ (["u", "v"] : List String).Nodup) :=
  ⟨by decide, onFunctionArgsChanged_stores_args sampleFunctionTable "f" ["u", "v"] (by decide)⟩

/-- C15. The name of the variable `x`, of the constant `a` and of the function
`f` is edited to the empty string and the user answers No to the question:
the slots remove the symbol all the same. `QMessageBox::question` returns the
button pressed, `QMessageBox::No` is `0x00010000`, and the slots test the
returned value as a truth value, which holds for both buttons. With the
answer Yes the symbol is removed, as it should be. -/
theorem onNameChanged_deletes_when_user_answers_no :
    StandardButton.No.toInt ≠ 0
    ∧ sampleFunctionTable.hasVariable "x" = true
    ∧ (SymbolsEditor.onVariableNameChanged sampleFormat sampleFunctionTable "x" ""
        StandardButton.No).symbolTable.hasVariable "x" = false
    ∧ sampleFunctionTable.hasConstant "a" = true
    ∧ (SymbolsEditor.onConstantNameChanged sampleFormat sampleFunctionTable "a" ""
        StandardButton.No).symbolTable.hasConstant "a" = false
    ∧ sampleFunctionTable.hasFunction "f" = true
    ∧ (SymbolsEditor.onFunctionNameChanged sampleFunctionTable "f" ""
        StandardButton.No).symbolTable.hasFunction "f" = false
    ∧ (SymbolsEditor.onVariableNameChanged sampleFormat sampleFunctionTable "x" ""
        StandardButton.No).symbolTable ≠ sampleFunctionTable
    ∧ (SymbolsEditor.onVariableNameChanged sampleFormat sampleFunctionTable "x" ""
        StandardButton.Yes).symbolTable.hasVariable "x" = false := by
  refine ⟨?_, ?_, ?_, ?_, ?_, ?_, ?_, ?_, ?_⟩ <;> decide

/-! ## The editor's value texts (`convertMap`) -/

theorem StdMap.mem_keys_of_mem {V : Type} (m : StdMap V) (k : String) (v : V)
    (h : (k, v) ∈ m) : k ∈ m.keys := by
  unfold StdMap.keys
  exact List.mem_map.mpr ⟨(k, v), h, rfl⟩

theorem StdMap.hasKey_iff_mem_keys {V : Type} (m : StdMap V) (k : String) :
    m.hasKey k = true ↔ k ∈ m.keys := by
  induction m with
  | nil => simp [StdMap.hasKey, StdMap.valueOf, StdMap.keys]
  | cons p rest ih =>
    obtain ⟨k1, v1⟩ := p
    by_cases h : k1 = k
    · simp [StdMap.hasKey, StdMap.valueOf, StdMap.keys, h]
    · have ih2 : (StdMap.valueOf rest k).isSome = true ↔ k ∈ List.map (fun p => p.1) rest := ih
      have h2 : ¬ k = k1 := fun e => h e.symm
      simp [StdMap.hasKey, StdMap.valueOf, StdMap.keys, h, h2, ih2]

/-- The loop of `convertMap` from an accumulated result on: it converts every
entry, or ends with the exception `toDecimal` throws for an entry. -/
theorem convertMap_fold (nf : NumberFormat) (prec : StdMap Int) :
    ∀ (map : StdMap ArithmeticType) (acc : StdMap String),
      (map.keys.map c_str).Nodup →
      (∀ k v, (k, v) ∈ map → ∃ d, prec.valueOf k = some d) →
      (∃ ret, List.foldlM (fun (ret : StdMap String) (p : String × ArithmeticType) => do
            let decimals ← prec.at p.1
            let precision := if decimals ≥ 0 then decimals else nf.bits2digits p.2.precision
            let text ← nf.toDecimal p.2 precision mpfr_rnd_t.MPFR_RNDN
            pure (ret.assign (c_str p.1) (c_str text))) acc map = Except.ok ret
        ∧ (∀ k, k ∉ map.keys.map c_str → ret.valueOf k = acc.valueOf k)
        ∧ (∀ k v, (k, v) ∈ map → ∃ d text, prec.valueOf k = some d
            ∧ nf.toDecimal v (if d ≥ 0 then d else nf.bits2digits v.precision)
                mpfr_rnd_t.MPFR_RNDN = Except.ok text
            ∧ ret.valueOf (c_str k) = some (c_str text)))
      ∨ (∃ e k v d, List.foldlM (fun (ret : StdMap String) (p : String × ArithmeticType) => do
            let decimals ← prec.at p.1
            let precision := if decimals ≥ 0 then decimals else nf.bits2digits p.2.precision
            let text ← nf.toDecimal p.2 precision mpfr_rnd_t.MPFR_RNDN
            pure (ret.assign (c_str p.1) (c_str text))) acc map = Except.error e
        ∧ (k, v) ∈ map ∧ prec.valueOf k = some d
        ∧ nf.toDecimal v (if d ≥ 0 then d else nf.bits2digits v.precision)
            mpfr_rnd_t.MPFR_RNDN = Except.error e) := by
  intro map
  induction map with
  | nil =>
    intro acc _ _
    exact Or.inl ⟨acc, rfl, fun _ _ => rfl, fun k v h => absurd h (List.not_mem_nil _)⟩
  | cons p rest ih =>
    obtain ⟨k0, v0⟩ := p
    intro acc hnodup hok
    have hnd : c_str k0 ∉ (StdMap.keys rest).map c_str ∧ ((StdMap.keys rest).map c_str).Nodup := by
      have h := hnodup
      simp only [StdMap.keys, List.map_cons, List.nodup_cons] at h
      exact h
    obtain ⟨d0, hd0⟩ := hok k0 v0 (List.mem_cons_self _ _)
    cases ht0 : nf.toDecimal v0 (if d0 ≥ 0 then d0 else nf.bits2digits v0.precision)
        mpfr_rnd_t.MPFR_RNDN with
    | error e =>
      refine Or.inr ⟨e, k0, v0, d0, ?_, List.mem_cons_self _ _, hd0, ht0⟩
      simp only [List.foldlM_cons, StdMap.at, hd0, ht0, bind, Except.bind, pure, Except.pure]
    | ok text0 =>
      rcases ih (acc.assign (c_str k0) (c_str text0)) hnd.2
          (fun k v h => hok k v (List.mem_cons_of_mem _ h)) with
        ⟨ret, hret, hkeep, hval⟩ | ⟨e, k, v, d, hret, hmem, hd, ht⟩
      · refine Or.inl ⟨ret, ?_, ?_, ?_⟩
        · simp only [List.foldlM_cons, StdMap.at, hd0, ht0, bind, Except.bind, pure, Except.pure]
          exact hret
        · intro k hk
          have hk2 : k ≠ c_str k0 ∧ k ∉ (StdMap.keys rest).map c_str := by
            have h := hk
            simp only [StdMap.keys, List.map_cons, List.mem_cons, not_or] at h
            exact h
          rw [hkeep k hk2.2, StdMap.valueOf_assign_ne _ _ _ _ hk2.1]
        · intro k v hmem
          rcases List.mem_cons.mp hmem with h | h
          · have hk : k = k0 := congrArg Prod.fst h
            have hv : v = v0 := congrArg Prod.snd h
            subst hk
            subst hv
            refine ⟨d0, text0, hd0, ht0, ?_⟩
            rw [hkeep (c_str k) hnd.1, StdMap.valueOf_assign_self]
          · exact hval k v h
      · refine Or.inr ⟨e, k, v, d, ?_, List.mem_cons_of_mem _ hmem, hd, ht⟩
        simp only [List.foldlM_cons, StdMap.at, hd0, ht0, bind, Except.bind, pure, Except.pure]
        exact hret

/-- C14, as stated, fails: the value map `nulValues` and the digit-count map
`nulDecimals` have the same two keys, `k` and the name `k`, NUL, `z`; the map
`convertMap` returns has the single key `k` (with the text of the second
value), because the key of an entry is built from the C string of the name,
`QString(p.first.c_str())`. -/
theorem convertMap_merges_names_with_equal_c_str :
    nulValues.keys = nulDecimals.keys
    ∧ nulValues.keys.Nodup
    ∧ nulValues.hasKey nulName = true
    ∧ convertMap printingFormat nulValues nulDecimals = Except.ok [("k", "2")]
    ∧ StdMap.hasKey [("k", "2")] nulName = false := by
  refine ⟨by decide, by decide, by decide, rfl, by decide⟩

/-- C14, amended. For every value map no two names of which have the same C
string (the text up to the first NUL character; so for every map whose names
hold no NUL character) and every digit-count map that has an entry for every
key of the value map: `convertMap` fails only with an exception that
`toDecimal` throws for an entry of the map, so it does not fail when
`toDecimal` throws for none; the keys of the map it returns are the C strings
of the keys of the value map (exactly the keys of the value map when they hold
no NUL character), and the text under the name of each entry is the C string of
`toDecimal(value, p, MPFR_RNDN)` with `p` the stored digit count when that
count is `>= 0` and `bits2digits` of the value's bit precision when the count
is negative. -/
theorem convertMap_keys_and_texts (nf : NumberFormat) (map : StdMap ArithmeticType)
    (prec : StdMap Int)
    (hdistinct : (map.keys.map c_str).Nodup)
    (hprec : ∀ k, map.hasKey k = true → prec.hasKey k = true) :
    (∀ e, convertMap nf map prec = Except.error e →
        ∃ k v d, (k, v) ∈ map ∧ prec.valueOf k = some d
          ∧ nf.toDecimal v (if d ≥ 0 then d else nf.bits2digits v.precision)
              mpfr_rnd_t.MPFR_RNDN = Except.error e)
    ∧ ((∀ k v d, (k, v) ∈ map → prec.valueOf k = some d →
          ∃ text, nf.toDecimal v (if d ≥ 0 then d else nf.bits2digits v.precision)
            mpfr_rnd_t.MPFR_RNDN = Except.ok text) →
        ∃ ret, convertMap nf map prec = Except.ok ret)
    ∧ (∀ ret, convertMap nf map prec = Except.ok ret →
        (∀ k, ret.hasKey k = true ↔ ∃ k0, map.hasKey k0 = true ∧ c_str k0 = k)
        ∧ ((∀ k, map.hasKey k = true → c_str k = k) → ∀ k, ret.hasKey k = map.hasKey k)
        ∧ (∀ k v, (k, v) ∈ map → ∃ d text, prec.valueOf k = some d
            ∧ nf.toDecimal v (if d ≥ 0 then d else nf.bits2digits v.precision)
                mpfr_rnd_t.MPFR_RNDN = Except.ok text
            ∧ ret.valueOf (c_str k) = some (c_str text))) := by
  have hok : ∀ k v, (k, v) ∈ map → ∃ d, prec.valueOf k = some d := by
    intro k v h
    have hk : map.hasKey k = true :=
      (StdMap.hasKey_iff_mem_keys map k).mpr (StdMap.mem_keys_of_mem map k v h)
    exact StdMap.exists_of_hasKey _ _ (hprec k hk)
  have hfold := convertMap_fold nf prec map [] hdistinct hok
  have hkeys : ∀ ret : StdMap String,
      (∀ k, k ∉ map.keys.map c_str → ret.valueOf k = StdMap.valueOf ([] : StdMap String) k) →
      (∀ k v, (k, v) ∈ map → ∃ d text, prec.valueOf k = some d
          ∧ nf.toDecimal v (if d ≥ 0 then d else nf.bits2digits v.precision)
              mpfr_rnd_t.MPFR_RNDN = Except.ok text
          ∧ ret.valueOf (c_str k) = some (c_str text)) →
      ∀ k, ret.hasKey k = true ↔ ∃ k0, map.hasKey k0 = true ∧ c_str k0 = k := by
    intro ret hkeep hval k
    constructor
    · intro hk
      by_cases hm : k ∈ map.keys.map c_str
      · obtain ⟨k0, hk0, hc⟩ := List.mem_map.mp hm
        exact ⟨k0, (StdMap.hasKey_iff_mem_keys map k0).mpr hk0, hc⟩
      · rw [StdMap.hasKey, hkeep k hm] at hk
        cases hk
    · rintro ⟨k0, hk0, hc⟩
      have hmem := (StdMap.hasKey_iff_mem_keys map k0).mp hk0
      obtain ⟨p, hp, hpk⟩ := List.mem_map.mp hmem
      obtain ⟨k1, v1⟩ := p
      simp only at hpk
      subst hpk
      obtain ⟨d, text, _, _, hv⟩ := hval k1 v1 hp
      rw [← hc, StdMap.hasKey, hv]
      rfl
  rcases hfold with ⟨ret, hret, hkeep, hval⟩ | ⟨e, k, v, d, hret, hmem, hd, ht⟩
  · have hconv : convertMap nf map prec = Except.ok ret := hret
    refine ⟨?_, fun _ => ⟨ret, hconv⟩, ?_⟩
    · intro e he
      rw [hconv] at he
      cases he
    · intro ret2 h2
      rw [hconv] at h2
      have hr : ret = ret2 := by
        injection h2
      subst hr
      refine ⟨hkeys ret hkeep hval, ?_, hval⟩
      intro hc k
      cases hm : map.hasKey k with
      | true => exact (hkeys ret hkeep hval k).mpr ⟨k, hm, hc k hm⟩
      | false =>
        cases hr : ret.hasKey k with
        | false => rfl
        | true =>
          obtain ⟨k0, hk0, hc0⟩ := (hkeys ret hkeep hval k).mp hr
          rw [hc k0 hk0] at hc0
          rw [← hc0, hk0] at hm
          cases hm
  · have hconv : convertMap nf map prec = Except.error e := hret
    refine ⟨?_, ?_, ?_⟩
    · intro e2 he
      rw [hconv] at he
      have hr : e = e2 := by
        injection he
      subst hr
      exact ⟨k, v, d, hmem, hd, ht⟩
    · intro hall
      obtain ⟨text, htext⟩ := hall k v d hmem hd
      rw [htext] at ht
      cases ht
    · intro ret2 h2
      rw [hconv] at h2
      cases h2

/-- C14, amended, at concrete inputs: the variables of the sample table and
their digit counts give the text `?` for the variable `x`; a map with a value
`toDecimal` throws for makes `convertMap` fail with that exception. -/
theorem convertMap_keys_and_texts_witness :
    (sampleTable.getVariables.keys.map c_str).Nodup
    ∧ (∀ k, sampleTable.getVariables.hasKey k = true →
        sampleTable.getVariableDecimals.hasKey k = true)
    ∧ convertMap printingFormat sampleTable.getVariables sampleTable.getVariableDecimals
        = Except.ok [("x", "?")]
    ∧ (∀ k, StdMap.hasKey [("x", "?")] k = sampleTable.getVariables.hasKey k)
    ∧ convertMap printingFormat [("y", ⟨0, 0, 64⟩)] [("y", -1)]
        = Except.error (CppException.runtime_error "cannot print") :=
  have h1 : (sampleTable.getVariables.keys.map c_str).Nodup := by decide
  have h2 : ∀ k, sampleTable.getVariables.hasKey k = true →
      sampleTable.getVariableDecimals.hasKey k = true := by
    intro k hk
    have hx : k = "x" := by
      have hm := (StdMap.hasKey_iff_mem_keys _ _).mp hk
      have hkeys : sampleTable.getVariables.keys = ["x"] := by decide
      rw [hkeys] at hm
      simpa using hm
    subst hx
    decide
  have h := convertMap_keys_and_texts printingFormat sampleTable.getVariables
    sampleTable.getVariableDecimals h1 h2
  have hc : ∀ k, sampleTable.getVariables.hasKey k = true → c_str k = k := by
    intro k hk
    have hx : k = "x" := by
      have hm := (StdMap.hasKey_iff_mem_keys _ _).mp hk
      have hkeys : sampleTable.getVariables.keys = ["x"] := by decide
      rw [hkeys] at hm
      simpa using hm
    subst hx
    decide
  ⟨h1, h2, rfl, (h.2.2 [("x", "?")] rfl).2.1 hc, rfl⟩

/-! ## The symbol-table files of the main window -/

theorem MainWindow.importSymbolTable_failed (env : Collaborators) (files : SymbolFiles)
    (w : MainWindow) (path : String) (e : CppException)
    (h : (env.fileReadAllText path).bind files.deserializeTable = Except.error e) :
    MainWindow.importSymbolTable env files w path
      = (false, { w with events := w.events ++
          [UiEvent.warning "Import failed"
            (c_str ("Failed to import symbols from " ++ path ++ " Error: " ++ e.what))] }) := by
  simp only [MainWindow.importSymbolTable, h]

/-- C16. For every path whose file cannot be read or deserialized (reading or
`deserializeTable` throws, whatever the exception), `importSymbolTable` returns
false and leaves the symbol table, the current symbol-table path, the enabled
state of the Save action and the set of active addons unchanged (it shows a
warning); `onActionOpenSymbolTable` with that file selected then leaves the
symbol-table path history as it was. -/
theorem importSymbolTable_atomic_on_failed_read (env : Collaborators) (files : SymbolFiles)
    (w : MainWindow) (path : String) (e : CppException)
    (hfail : (env.fileReadAllText path).bind files.deserializeTable = Except.error e) :
    (MainWindow.importSymbolTable env files w path).1 = false
    ∧ (MainWindow.importSymbolTable env files w path).2.symbolTable = w.symbolTable
    ∧ (MainWindow.importSymbolTable env files w path).2.currentSymbolTablePath
        = w.currentSymbolTablePath
    ∧ (MainWindow.importSymbolTable env files w path).2.saveSymbolsEnabled = w.saveSymbolsEnabled
    ∧ (MainWindow.importSymbolTable env files w path).2.activeAddons = w.activeAddons
    ∧ (MainWindow.importSymbolTable env files w path).2.symbolsDialog = w.symbolsDialog
    ∧ (∀ execResult,
        (MainWindow.onActionOpenSymbolTable env files w execResult [path]).symbolTablePathHistory
          = w.symbolTablePathHistory) := by
  have h := MainWindow.importSymbolTable_failed env files w path e hfail
  rw [h]
  refine ⟨rfl, rfl, rfl, rfl, rfl, rfl, ?_⟩
  intro execResult
  simp only [MainWindow.onActionOpenSymbolTable, h]
  split <;> rfl

/-- C16 at a concrete input: the sample file collaborators reject every
symbol-table document. -/
theorem importSymbolTable_atomic_on_failed_read_witness :
    (historyCollaborators.fileReadAllText "/a").bind sampleFiles.deserializeTable
        = Except.error (CppException.exception "parse error")
    ∧ (MainWindow.importSymbolTable historyCollaborators sampleFiles sampleWindow "/a").1 = false
    ∧ (MainWindow.importSymbolTable historyCollaborators sampleFiles sampleWindow "/a").2.symbolTable
        = sampleWindow.symbolTable
    ∧ (MainWindow.onActionOpenSymbolTable historyCollaborators sampleFiles sampleWindow 1
        ["/a"]).symbolTablePathHistory = sampleWindow.symbolTablePathHistory :=
  have h := importSymbolTable_atomic_on_failed_read historyCollaborators sampleFiles sampleWindow
    "/a" (CppException.exception "parse error") rfl
  ⟨rfl, h.1, h.2.1, h.2.2.2.2.2.2 1⟩

/-! ## The symbol-table path history -/

end QCalc
